import Mathlib

/-!
# Brood client (`pkg/brood/user.go`): a shallow embedding

The nine operations of `BroodClient` are embedded as pure functions that return
the pair of a result and an error.  What the operations are run against is a
parameter: the transport (`client.HTTPClient.Do`), the URL parser of `net/url`,
and the declarations of `AuthUser` and `UserTokensList`, which the source file
uses and does not declare.  The pieces of the Go standard library whose
behaviour decides what an operation returns are embedded as executable
definitions:

* `encoding/json`: the scanner of `Decoder.Decode` (it reads the first value of
  the stream and leaves the data after it unread) and the rules of `Unmarshal`
  for struct targets (keys match fields up to letter case, `null` is a no-op, a
  value of the wrong kind is a type error that does not stop the decoding);
* `net/url`: `Values.Add`, `Values.Encode`, `QueryEscape`, `QueryUnescape`,
  `ParseQuery` (as of Go 1.17), `URL.Query`;
* `net/http`: `NewRequest`, `Header.Add`, `Header.Set`, `Client.PostForm`.

Conventions.  A Go string is a Lean string (text that is valid UTF-8); inside
`url.Values`, where unescaping can produce any byte, it is a byte list.  A Go
map argument is the list of its entries in the order a `range` loop meets them;
the statements hold for every order.  A response body is its data, the read
error that may end it, and how far the reader was ahead of the decoder.
-/

namespace Brood

/-! ## Errors -/

/-- The errors an operation can return. -/
inductive Error where
  /-- `http.NewRequest` failed (the route did not parse). -/
  | request (msg : String)
  /-- `HTTPClient.Do` failed. -/
  | transport (msg : String)
  /-- `utils.HTTPStatusCheck`: the status is outside the success range. -/
  | status (code : Int) (body : String)
  /-- Reading the response body failed. -/
  | read (msg : String)
  /-- `io.EOF`: the decoder found no value at all. -/
  | EOF
  /-- `io.ErrUnexpectedEOF`: the stream ended inside a value. -/
  | unexpectedEOF
  /-- `*json.SyntaxError`. -/
  | invalidJSON
  /-- `*json.UnmarshalTypeError`: a JSON value of kind `value` met a Go field
  (or target) `field` that cannot hold it. -/
  | unmarshalType (value : String) (field : String)
  deriving DecidableEq, Repr

/-! ## encoding/json: values and the scanner -/

/-- A JSON value; a number keeps its literal text. -/
inductive JSON where
  | null
  | bool (b : Bool)
  | number (lit : String)
  | str (s : String)
  | array (xs : List JSON)
  | object (kvs : List (String × JSON))
  deriving Repr

/-- The word `UnmarshalTypeError.Value` uses for a JSON value. -/
def JSON.kind : JSON → String
  | .null => "null"
  | .bool _ => "bool"
  | .number _ => "number"
  | .str _ => "string"
  | .array _ => "array"
  | .object _ => "object"

/-- Whether the value is an array or an object: the scanner knows such a value
is complete at its closing bracket, any other only at the byte after it. -/
def JSON.isComposite : JSON → Bool
  | .array _ => true
  | .object _ => true
  | _ => false

/-- The scanner's `isSpace`. -/
def isSpace (c : Char) : Bool :=
  c = ' ' || c = '\t' || c = '\r' || c = '\n'

/-- A decimal digit. -/
def isDigit (c : Char) : Bool :=
  decide ('0' ≤ c) && decide (c ≤ '9')

/-- The value of a hexadecimal digit (`getu4`). -/
def hexVal (c : Char) : Option Nat :=
  if '0' ≤ c ∧ c ≤ '9' then some (c.toNat - 48)
  else if 'a' ≤ c ∧ c ≤ 'f' then some (c.toNat - 87)
  else if 'A' ≤ c ∧ c ≤ 'F' then some (c.toNat - 55)
  else none

/-- The character a one-letter escape stands for (`unquote`). -/
def unescapeChar (c : Char) : Option Char :=
  if c = '"' then some '"'
  else if c = '\\' then some '\\'
  else if c = '/' then some '/'
  else if c = 'b' then some (Char.ofNat 8)
  else if c = 'f' then some (Char.ofNat 12)
  else if c = 'n' then some '\n'
  else if c = 'r' then some '\r'
  else if c = 't' then some '\t'
  else none

/-- A piece of a string literal: a character, or the UTF-16 code unit written
by a `\uXXXX` escape. -/
inductive Piece where
  | ch (c : Char)
  | unit (n : Nat)
  deriving DecidableEq, Repr

/-- A UTF-16 surrogate (`utf16.IsSurrogate`). -/
def isSurrogate (n : Nat) : Bool :=
  decide (0xD800 ≤ n) && decide (n < 0xE000)

/-- The rune of one code unit: U+FFFD for a surrogate that has no partner. -/
def unitChar (n : Nat) : Char :=
  if isSurrogate n then Char.ofNat 0xFFFD else Char.ofNat n

/-- The text of a string literal from its pieces (`unquote`), read left to
right; `hi` is a high surrogate written by the escape just before, which waits
for its partner.  Two adjacent escapes that form a surrogate pair become one
rune, a surrogate without a partner becomes U+FFFD. -/
def combineFrom : Option Nat → List Piece → List Char
  | none, [] => []
  | some _, [] => [Char.ofNat 0xFFFD]
  | none, .ch c :: rest => c :: combineFrom none rest
  | some _, .ch c :: rest => Char.ofNat 0xFFFD :: c :: combineFrom none rest
  | none, .unit a :: rest =>
    if 0xD800 ≤ a ∧ a < 0xDC00 then combineFrom (some a) rest
    else unitChar a :: combineFrom none rest
  | some h, .unit a :: rest =>
    if 0xDC00 ≤ a ∧ a < 0xE000 then
      Char.ofNat (0x10000 + (h - 0xD800) * 0x400 + (a - 0xDC00)) :: combineFrom none rest
    else if 0xD800 ≤ a ∧ a < 0xDC00 then Char.ofNat 0xFFFD :: combineFrom (some a) rest
    else Char.ofNat 0xFFFD :: unitChar a :: combineFrom none rest

/-- The text of a string literal from its pieces. -/
def combine (ps : List Piece) : List Char :=
  combineFrom none ps

/-- The scanner's states inside a number. -/
inductive NumState where
  | neg | zero | int | dot | frac | e | esign | exp
  deriving DecidableEq, Repr

/-- A number may end in these states. -/
def NumState.accepting : NumState → Bool
  | .zero => true
  | .int => true
  | .frac => true
  | .exp => true
  | _ => false

/-- The scanner's states inside a string literal. -/
inductive StrState where
  | plain
  | esc
  | hex (left : Nat) (acc : Nat)
  deriving DecidableEq, Repr

/-- A container that is being read (`scanner.parseState`, with what was read of
it so far). -/
inductive Frame where
  | arr (done : List JSON)
  | obj (done : List (String × JSON)) (key : Option String)
  deriving Repr

/-- What the scanner expects next. -/
inductive Mode where
  /-- A value; right after `[` also the closing bracket. -/
  | value (mayClose : Bool)
  /-- An object key; right after the opening brace also the closing one. -/
  | key (mayClose : Bool)
  /-- Inside a string literal (a key or a value). -/
  | text (isKey : Bool) (acc : List Piece) (st : StrState)
  /-- Inside a number. -/
  | num (st : NumState) (lit : List Char)
  /-- Inside `true`, `false` or `null`: the letters still to come. -/
  | word (rest : List Char) (v : JSON)
  /-- After a key: the colon. -/
  | colon
  /-- After a value inside a container: a comma or the closing bracket. -/
  | after
  deriving Repr

/-- The outcome of one scanner step. -/
inductive Step where
  | more (m : Mode) (st : List Frame)
  /-- The top-level value is complete; `consumed` tells whether the current
  character belongs to it. -/
  | done (v : JSON) (consumed : Bool)
  | fail
  deriving Repr

/-- The scanner's `maxNestingDepth`. -/
def maxNestingDepth : Nat := 10000

/-- A value is complete (`stateEndValue` for the value itself). -/
def endValue (v : JSON) : List Frame → Step
  | [] => .done v true
  | .arr done :: st => .more .after (.arr (done ++ [v]) :: st)
  | .obj done (some k) :: st => .more .after (.obj (done ++ [(k, v)]) none :: st)
  | .obj _ none :: _ => .fail

/-- After a value inside a container (`stateEndValue`). -/
def stepAfter (st : List Frame) (c : Char) : Step :=
  if isSpace c then .more .after st
  else match st with
    | .arr done :: rest =>
      if c = ',' then .more (.value false) st
      else if c = ']' then endValue (.array done) rest
      else .fail
    | .obj done none :: rest =>
      if c = ',' then .more (.key false) st
      else if c = '}' then endValue (.object done) rest
      else .fail
    | _ => .fail

/-- The first character of a value (`stateBeginValue`). -/
def beginValue (st : List Frame) (c : Char) : Step :=
  if c = '{' then
    (if st.length < maxNestingDepth then .more (.key true) (.obj [] none :: st) else .fail)
  else if c = '[' then
    (if st.length < maxNestingDepth then .more (.value true) (.arr [] :: st) else .fail)
  else if c = '"' then .more (.text false [] .plain) st
  else if c = '-' then .more (.num .neg [c]) st
  else if c = '0' then .more (.num .zero [c]) st
  else if '1' ≤ c ∧ c ≤ '9' then .more (.num .int [c]) st
  else if c = 't' then .more (.word ['r', 'u', 'e'] (.bool true)) st
  else if c = 'f' then .more (.word ['a', 'l', 's', 'e'] (.bool false)) st
  else if c = 'n' then .more (.word ['u', 'l', 'l'] .null) st
  else .fail

/-- A number ends before `c`: at top level the value is complete and `c` is
left unread, inside a container `c` is read as what follows a value. -/
def endNumber (lit : List Char) (st : List Frame) (c : Char) : Step :=
  match st with
  | [] => .done (.number (String.mk lit)) false
  | _ =>
    match endValue (.number (String.mk lit)) st with
    | .more _ st2 => stepAfter st2 c
    | r => r

/-- Inside a number (`stateNeg`, `state0`, `state1`, `stateDot`, `stateDot0`,
`stateE`, `stateESign`, `stateE0`). -/
def stepNum (ns : NumState) (lit : List Char) (st : List Frame) (c : Char) : Step :=
  match ns with
  | .neg =>
    if c = '0' then .more (.num .zero (lit ++ [c])) st
    else if '1' ≤ c ∧ c ≤ '9' then .more (.num .int (lit ++ [c])) st
    else .fail
  | .int =>
    if isDigit c then .more (.num .int (lit ++ [c])) st
    else if c = '.' then .more (.num .dot (lit ++ [c])) st
    else if c = 'e' ∨ c = 'E' then .more (.num .e (lit ++ [c])) st
    else endNumber lit st c
  | .zero =>
    if c = '.' then .more (.num .dot (lit ++ [c])) st
    else if c = 'e' ∨ c = 'E' then .more (.num .e (lit ++ [c])) st
    else endNumber lit st c
  | .dot =>
    if isDigit c then .more (.num .frac (lit ++ [c])) st else .fail
  | .frac =>
    if isDigit c then .more (.num .frac (lit ++ [c])) st
    else if c = 'e' ∨ c = 'E' then .more (.num .e (lit ++ [c])) st
    else endNumber lit st c
  | .e =>
    if c = '+' ∨ c = '-' then .more (.num .esign (lit ++ [c])) st
    else if isDigit c then .more (.num .exp (lit ++ [c])) st
    else .fail
  | .esign =>
    if isDigit c then .more (.num .exp (lit ++ [c])) st else .fail
  | .exp =>
    if isDigit c then .more (.num .exp (lit ++ [c])) st
    else endNumber lit st c

/-- Inside a string literal (`stateInString`, `stateInStringEsc`,
`stateInStringEscU` and its three followers). -/
def stepText (isKey : Bool) (acc : List Piece) (ss : StrState) (st : List Frame)
    (c : Char) : Step :=
  match ss with
  | .plain =>
    if c = '"' then
      (if isKey then
        match st with
        | .obj done none :: rest =>
          .more .colon (.obj done (some (String.mk (combine acc))) :: rest)
        | _ => .fail
      else endValue (.str (String.mk (combine acc))) st)
    else if c = '\\' then .more (.text isKey acc .esc) st
    else if c.toNat < 0x20 then .fail
    else .more (.text isKey (acc ++ [.ch c]) .plain) st
  | .esc =>
    match unescapeChar c with
    | some d => .more (.text isKey (acc ++ [.ch d]) .plain) st
    | none => if c = 'u' then .more (.text isKey acc (.hex 4 0)) st else .fail
  | .hex n a =>
    match hexVal c with
    | none => .fail
    | some h =>
      if n ≤ 1 then .more (.text isKey (acc ++ [.unit (a * 16 + h)]) .plain) st
      else .more (.text isKey acc (.hex (n - 1) (a * 16 + h))) st

/-- One step of the scanner (`scanner.step`). -/
def step (m : Mode) (st : List Frame) (c : Char) : Step :=
  match m with
  | .value mayClose =>
    if isSpace c then .more (.value mayClose) st
    else if mayClose ∧ c = ']' then
      match st with
      | .arr done :: rest => endValue (.array done) rest
      | _ => .fail
    else beginValue st c
  | .key mayClose =>
    if isSpace c then .more (.key mayClose) st
    else if c = '"' then .more (.text true [] .plain) st
    else if mayClose ∧ c = '}' then
      match st with
      | .obj done none :: rest => endValue (.object done) rest
      | _ => .fail
    else .fail
  | .text isKey acc ss => stepText isKey acc ss st c
  | .num ns lit => stepNum ns lit st c
  | .word rest v =>
    match rest with
    | [] => .fail
    | [x] => if c = x then endValue v st else .fail
    | x :: xs => if c = x then .more (.word xs v) st else .fail
  | .colon =>
    if isSpace c then .more .colon st
    else if c = ':' then .more (.value false) st
    else .fail
  | .after => stepAfter st c

/-- The outcome of scanning a stream for its first value. -/
inductive Scan where
  /-- The first value and the text after it, which stays unread. -/
  | ok (v : JSON) (rest : List Char)
  /-- A character that cannot continue a JSON value. -/
  | invalid
  /-- The text ended before the value was complete. -/
  | eof
  deriving Repr

/-- The scanner run over the text (`Decoder.readValue`): it stops at the end
of the first value. -/
def scanFrom : Mode → List Frame → List Char → Scan
  | m, st, [] =>
    match m, st with
    | .num ns lit, [] => if ns.accepting then .ok (.number (String.mk lit)) [] else .eof
    | _, _ => .eof
  | m, st, c :: cs =>
    match step m st c with
    | .more m2 st2 => scanFrom m2 st2 cs
    | .done v consumed => .ok v (if consumed then cs else c :: cs)
    | .fail => .invalid

/-- The scan of a whole stream. -/
def scan (text : String) : Scan :=
  scanFrom (.value false) [] text.data

/-! ## encoding/json: `Decoder.Decode` into a Go value -/

/-- A response body as the reader delivers it: `data`, and then either the end
of the stream (`err = none`) or a read error.  The reader hands the data over in
chunks; `ahead` is the number of characters after the first JSON value that it
has handed over when a decoder returns that value. -/
structure Body where
  data : String
  err : Option Error := none
  ahead : Nat := 0
  deriving DecidableEq, Repr

/-- The first value of the stream (`Decoder.readValue`).  The scanner runs over
the data that arrived before the reader's error is looked at; a value that is
not an array or an object is complete only at the byte after it or at the end
of the stream. -/
def readValue (body : Body) : Except Error JSON :=
  match scan body.data with
  | .ok v rest =>
    if v.isComposite || !rest.isEmpty then .ok v
    else
      match body.err with
      | some e => .error e
      | none => .ok v
  | .invalid => .error .invalidJSON
  | .eof =>
    match body.err with
    | some e => .error e
    | none => if body.data.data.all isSpace then .error .EOF else .error .unexpectedEOF

/-- A Go type as a target of `Decode`: its zero value and what `Unmarshal`
does with a JSON value (the value stored and the error returned). -/
structure Target (α : Type) where
  zero : α
  unmarshal : JSON → α → α × Option Error

/-- The call `json.NewDecoder(r).Decode(&x)` with `x` holding `into`.  The
value is scanned in full before anything is stored: on a scan or read error
`x` is unchanged. -/
def Decode {α : Type} (t : Target α) (body : Body) (into : α) : α × Option Error :=
  match readValue body with
  | .error e => (into, some e)
  | .ok v => t.unmarshal v into

/-- The smallest rune of a rune's case-folding orbit (`foldRune`).  ASCII letters
fold to upper case, U+017F to `S` and U+212A to `K`.  Every other rune is kept:
its orbit holds no ASCII rune, and the names compared here are ASCII. -/
def foldRune (c : Char) : Char :=
  if 'a' ≤ c ∧ c ≤ 'z' then Char.ofNat (c.toNat - 32)
  else if c = '\u017f' then 'S'
  else if c = '\u212a' then 'K'
  else c

/-- The folded name under which a key is looked up (`foldName`). -/
def foldName (s : String) : List Char :=
  s.data.map foldRune

/-- A field of a struct target: its JSON name, and the store of a value other
than `null` (`none`: the value's kind does not fit the field's type). -/
structure Field (α : Type) where
  name : String
  set : JSON → α → Option α

/-- The field an object key names: the one with exactly this name, else the
first whose folded name equals the folded key. -/
def findField {α : Type} (fields : List (Field α)) (key : String) : Option (Field α) :=
  match fields.find? (fun f => f.name = key) with
  | some f => some f
  | none => fields.find? (fun f => foldName f.name = foldName key)

/-- The store of one member's value into its field (`literalStore`, `array`,
`object`): `null` leaves the field as it is, a value of the wrong kind leaves it
and reports an `UnmarshalTypeError`. -/
def storeField {α : Type} (f : Field α) (v : JSON) (x : α) : α × Option Error :=
  match v with
  | .null => (x, none)
  | _ =>
    match f.set v x with
    | some y => (y, none)
    | none => (x, some (.unmarshalType v.kind f.name))

/-- The error `decodeState.saveError` keeps: the first one. -/
def saveError (saved new : Option Error) : Option Error :=
  match saved with
  | some e => some e
  | none => new

/-- The members of an object stored one after the other (`decodeState.object`):
a key that names no field is skipped, a type error is saved and the decoding
goes on. -/
def unmarshalObject {α : Type} (fields : List (Field α)) :
    List (String × JSON) → α → Option Error → α × Option Error
  | [], x, saved => (x, saved)
  | (k, v) :: rest, x, saved =>
    match findField fields k with
    | none => unmarshalObject fields rest x saved
    | some f =>
      unmarshalObject fields rest (storeField f v x).1 (saveError saved (storeField f v x).2)

/-- The rule of `Unmarshal` for a struct: `null` is a no-op, an object is stored
member by member, any other value is an `UnmarshalTypeError`. -/
def unmarshalStruct {α : Type} (typeName : String) (fields : List (Field α)) (v : JSON)
    (x : α) : α × Option Error :=
  match v with
  | .null => (x, none)
  | .object kvs => unmarshalObject fields kvs x none
  | _ => (x, some (.unmarshalType v.kind typeName))

/-! ## The entities -/

/-- Modelled from the spec: the declaration of `User` (`pkg/brood/data.go` is
missing): "account record: id (string, may be empty until back-filled),
username, email, verification status", the id under the JSON name `id`. -/
structure User where
  Id : String := ""
  Username : String := ""
  Email : String := ""
  Verified : Bool := false
  deriving DecidableEq, Repr

/-- The fields of `User` as `Unmarshal` sees them. -/
def User.fields : List (Field User) :=
  [ { name := "id"
      set := fun v u => match v with
        | .str s => some { u with Id := s }
        | _ => none },
    { name := "username"
      set := fun v u => match v with
        | .str s => some { u with Username := s }
        | _ => none },
    { name := "email"
      set := fun v u => match v with
        | .str s => some { u with Email := s }
        | _ => none },
    { name := "verified"
      set := fun v u => match v with
        | .bool b => some { u with Verified := b }
        | _ => none } ]

/-- The type `User` as a target of `Decode`. -/
def User.target : Target User where
  zero := {}
  unmarshal := unmarshalStruct "User" User.fields

/-- Modelled from the spec: the declaration of `UserGeneratedToken`
(`pkg/brood/data.go` is missing): "an opaque token id string wrapped in a JSON
envelope", the envelope being `\x7b"id": ...\x7d`. -/
structure UserGeneratedToken where
  Id : String := ""
  deriving DecidableEq, Repr

/-- The one field of `UserGeneratedToken`. -/
def UserGeneratedToken.fields : List (Field UserGeneratedToken) :=
  [ { name := "id"
      set := fun v _ => match v with
        | .str s => some { Id := s }
        | _ => none } ]

/-- The type `UserGeneratedToken` as a target of `Decode`. -/
def UserGeneratedToken.target : Target UserGeneratedToken where
  zero := {}
  unmarshal := unmarshalStruct "UserGeneratedToken" UserGeneratedToken.fields

/-- The anonymous struct of `getUserID`: one string field under the JSON name
`user_id`. -/
structure UserIDWrapper where
  UserID : String := ""
  deriving DecidableEq, Repr

/-- The one field of the wrapper. -/
def UserIDWrapper.fields : List (Field UserIDWrapper) :=
  [ { name := "user_id"
      set := fun v _ => match v with
        | .str s => some { UserID := s }
        | _ => none } ]

/-- The wrapper as a target of `Decode`. -/
def UserIDWrapper.target : Target UserIDWrapper where
  zero := {}
  unmarshal := unmarshalStruct "struct" UserIDWrapper.fields

/-- The function `getUserID`: decode the stream into the wrapper and return its
field together with the decoder's error. -/
def getUserID (decoder : Body) : String × Option Error :=
  ((Decode UserIDWrapper.target decoder {}).1.UserID, (Decode UserIDWrapper.target decoder {}).2)

/-! ## net/url: `Values`, escaping, the query of a URL -/

/-- A Go string as bytes. -/
abbrev Bytes := List UInt8

/-- The bytes of a text (its UTF-8 encoding). -/
def toBytes (s : String) : Bytes :=
  s.data.flatMap String.utf8EncodeChar

/-- The type `url.Values` (a map from a key to the list of its values), kept as
the list of its key/value pairs in the order they were added: the values of one
key are the pairs with that key, in order. -/
abbrev Values := List (Bytes × Bytes)

/-- The literal `url.Values{}`. -/
def Values.empty : Values := []

/-- The values of a key (`v[key]`). -/
def Values.lookup (v : Values) (key : Bytes) : List Bytes :=
  (v.filter (fun p => p.1 = key)).map (fun p => p.2)

/-- The method `Values.Add`: the value is appended to the values of the key. -/
def Values.Add (v : Values) (key value : String) : Values :=
  v ++ [(toBytes key, toBytes value)]

/-- The bytes `QueryEscape` leaves as they are. -/
def isUnreserved (b : UInt8) : Bool :=
  (decide (97 ≤ b) && decide (b ≤ 122)) || (decide (65 ≤ b) && decide (b ≤ 90)) ||
    (decide (48 ≤ b) && decide (b ≤ 57)) || b = 45 || b = 95 || b = 46 || b = 126

/-- A digit of `upperhex`, as a byte. -/
def upperhex (n : UInt8) : UInt8 :=
  if n < 10 then 48 + n else 55 + n

/-- One byte as `QueryEscape` writes it: a space is `+`, an unreserved byte is
itself, any other is `%XX`. -/
def escapeByte (b : UInt8) : Bytes :=
  if b = 32 then [43]
  else if isUnreserved b then [b]
  else [37, upperhex (b / 16), upperhex (b % 16)]

/-- The function `url.QueryEscape`; its result holds ASCII bytes only. -/
def QueryEscape (s : Bytes) : Bytes :=
  s.flatMap escapeByte

/-- The order of Go strings: bytewise lexicographic. -/
def bytesLE : Bytes → Bytes → Bool
  | [], _ => true
  | _ :: _, [] => false
  | a :: as, b :: bs => decide (a < b) || (a = b && bytesLE as bs)

/-- A pair put into a list sorted by key, before the pairs of the same key. -/
def insertKey (p : Bytes × Bytes) : Values → Values
  | [] => [p]
  | q :: rest => if bytesLE p.1 q.1 then p :: q :: rest else q :: insertKey p rest

/-- The pairs sorted by key, the values of one key in their order. -/
def sortByKey (v : Values) : Values :=
  v.foldr insertKey []

/-- One `key=value` of the encoded form. -/
def Values.segment (p : Bytes × Bytes) : Bytes :=
  QueryEscape p.1 ++ 61 :: QueryEscape p.2

/-- The pieces joined by `&` (the `strings.Builder` loop of `Encode`). -/
def joinAmp : List Bytes → Bytes
  | [] => []
  | [x] => x
  | x :: y :: rest => x ++ 38 :: joinAmp (y :: rest)

/-- The bytes `Values.Encode` writes: the keys in sorted order, for each key its
values in order, every pair as `key=value` (both escaped), joined by `&`. -/
def Values.encodeBytes (v : Values) : Bytes :=
  joinAmp ((sortByKey v).map Values.segment)

/-- The text of ASCII bytes. -/
def asciiText (bs : Bytes) : String :=
  String.mk (bs.map (fun b => Char.ofNat b.toNat))

/-- The method `Values.Encode`. -/
def Values.Encode (v : Values) : String :=
  asciiText v.encodeBytes

/-- The pieces between separators (`strings.Cut` in a loop). -/
def splitOn {α : Type} [DecidableEq α] (sep : α) : List α → List (List α)
  | [] => [[]]
  | b :: bs =>
    if b = sep then [] :: splitOn sep bs
    else
      match splitOn sep bs with
      | [] => [[b]]
      | x :: xs => (b :: x) :: xs

/-- The function `strings.Cut`: the text before the first separator and the
text after it (empty when there is none). -/
def cut {α : Type} [DecidableEq α] (sep : α) : List α → List α × List α
  | [] => ([], [])
  | b :: bs => if b = sep then ([], bs) else (b :: (cut sep bs).1, (cut sep bs).2)

/-- The value of a hexadecimal digit (`unhex`, after `ishex`). -/
def unhex (b : UInt8) : Option UInt8 :=
  if 48 ≤ b ∧ b ≤ 57 then some (b - 48)
  else if 97 ≤ b ∧ b ≤ 102 then some (b - 97 + 10)
  else if 65 ≤ b ∧ b ≤ 70 then some (b - 65 + 10)
  else none

/-- Where `unescape` stands in a `%XX`. -/
inductive PctState where
  | plain
  | first
  | second (hi : UInt8)
  deriving DecidableEq, Repr

/-- The function `url.QueryUnescape`, read left to right: `+` is a space, `%XX`
is the byte, a `%` without two hexadecimal digits is an error (`none`). -/
def unescapeFrom : PctState → Bytes → Option Bytes
  | .plain, [] => some []
  | .first, [] => none
  | .second _, [] => none
  | .plain, b :: bs =>
    if b = 37 then unescapeFrom .first bs
    else if b = 43 then (unescapeFrom .plain bs).map (fun r => 32 :: r)
    else (unescapeFrom .plain bs).map (fun r => b :: r)
  | .first, b :: bs =>
    match unhex b with
    | some h => unescapeFrom (.second h) bs
    | none => none
  | .second h, b :: bs =>
    match unhex b with
    | some l => (unescapeFrom .plain bs).map (fun r => (h * 16 + l) :: r)
    | none => none

/-- The function `url.QueryUnescape`. -/
def QueryUnescape (s : Bytes) : Option Bytes :=
  unescapeFrom .plain s

/-- One piece of a query (`parseQuery`, the body of its loop): a piece that is
empty, holds a semicolon or does not unescape adds nothing. -/
def parsePair (piece : Bytes) : Option (Bytes × Bytes) :=
  if piece.contains 59 then none
  else if piece = [] then none
  else
    match QueryUnescape (cut 61 piece).1, QueryUnescape (cut 61 piece).2 with
    | some k, some v => some (k, v)
    | _, _ => none

/-- The values `url.ParseQuery` returns (its error apart). -/
def ParseQuery (query : Bytes) : Values :=
  (splitOn 38 query).filterMap parsePair

/-- The parts of a `url.URL` the client reads or writes. -/
structure URL where
  Scheme : String := ""
  Host : String := ""
  Path : String := ""
  RawQuery : String := ""
  Fragment : String := ""
  deriving DecidableEq, Repr

/-- The method `URL.Query`: the parsed `RawQuery`, malformed pairs dropped. -/
def URL.Query (u : URL) : Values :=
  ParseQuery (toBytes u.RawQuery)

/-- The function `url.Parse`, which belongs to the Go library: a parameter of
the embedding. -/
abbrev URLParser := String → Except Error URL

/-- A parser of absolute URLs `scheme://host/path?query#fragment`, the parameter
of the closed examples.  As `url.Parse` does, it refuses control characters,
cuts the fragment at the first `#` and then the query at the first `?`. -/
def urlParse : URLParser := fun s =>
  if s.data.any (fun c => decide (c.toNat < 0x20) || decide (c.toNat = 0x7f)) then
    .error (.request "invalid control character in URL")
  else
    match cut ':' (cut '?' (cut '#' s.data).1).1 with
    | (scheme, '/' :: '/' :: rest) =>
      if scheme = [] then .error (.request "missing protocol scheme")
      else
        .ok { Scheme := String.mk scheme
              Host := String.mk (List.takeWhile (fun c => c ≠ '/') rest)
              Path := String.mk (List.dropWhile (fun c => c ≠ '/') rest)
              RawQuery := String.mk (cut '?' (cut '#' s.data).1).2
              Fragment := String.mk (cut '#' s.data).2 }
    | _ => .error (.request "unsupported URL")

/-! ## net/http: requests, headers, the client -/

/-- The type `http.Header`, kept as the list of its name/value pairs in the
order they were added. -/
abbrev Header := List (String × String)

/-- The method `Header.Add`.  The names the client passes are in canonical form
already. -/
def Header.Add (h : Header) (key value : String) : Header :=
  h ++ [(key, value)]

/-- The method `Header.Set`: the values of the name are replaced. -/
def Header.Set (h : Header) (key value : String) : Header :=
  h.filter (fun p => p.1 ≠ key) ++ [(key, value)]

/-- The method `Header.Values`: all values of a name. -/
def Header.Values (h : Header) (key : String) : List String :=
  (h.filter (fun p => p.1 = key)).map (fun p => p.2)

/-- The type `http.Request`: what the client sets on it. -/
structure Request where
  Method : String
  URL : URL
  Header : Header := []
  Body : String := ""
  ContentLength : Int := 0
  deriving DecidableEq, Repr

/-- The type `http.Response`: what the client reads of it. -/
structure Response where
  StatusCode : Int
  Body : Body
  deriving DecidableEq, Repr

/-- The function `http.NewRequest` for the methods the client uses (`GET`,
`POST`, `PUT`): it fails when the URL does not parse; the body, when there is
one, is a `strings.Reader`, whose length becomes `ContentLength`.  The header
starts empty. -/
def NewRequest (parse : URLParser) (method url : String) (body : Option String) :
    Except Error Request :=
  match parse url with
  | .error e => .error e
  | .ok u =>
    .ok { Method := method
          URL := u
          Header := []
          Body := body.getD ""
          ContentLength := match body with
            | some b => (b.utf8ByteSize : Int)
            | none => 0 }

/-- The type `http.Client` as the operations see it: `Do` sends a request and
returns the response or a transport error. -/
structure HTTPClient where
  Do : Request → Except Error Response

/-- The request `Client.PostForm` builds (`Client.Post`): a POST of the encoded
form with `Content-Type` set. -/
def PostFormRequest (parse : URLParser) (url : String) (data : Values) :
    Except Error Request :=
  match NewRequest parse "POST" url (some data.Encode) with
  | .error e => .error e
  | .ok req =>
    .ok { req with Header := req.Header.Set "Content-Type" "application/x-www-form-urlencoded" }

/-- The method `Client.PostForm`. -/
def HTTPClient.PostForm (c : HTTPClient) (parse : URLParser) (url : String) (data : Values) :
    Except Error Response :=
  match PostFormRequest parse url data with
  | .error e => .error e
  | .ok req => c.Do req

/-- The function `strconv.Itoa` on a length. -/
def Itoa (n : Nat) : String :=
  toString n

/-- The function `len` on a string: its number of bytes. -/
def len (s : String) : Nat :=
  s.utf8ByteSize

/-! ## The client -/

/-- The route table (`client.Routes`; its declaration is missing): the seven
routes the operations read, each a URL as text. -/
structure BroodRoutes where
  Auth : String
  User : String
  Token : String
  ListTokens : String
  FindUser : String
  ConfirmRegistration : String
  ChangePassword : String
  deriving DecidableEq, Repr

/-- The type `BroodClient` (its declaration is missing): the two fields the
operations read. -/
structure BroodClient where
  Routes : BroodRoutes
  HTTPClient : HTTPClient

/-- Modelled from the spec: the function `utils.HTTPStatusCheck` (`pkg/utils` is
missing): "any status outside the success range produces an error that carries
the status code and raw body text", the success range being 200 to 299. -/
def HTTPStatusCheck (response : Response) : Option Error :=
  if 200 ≤ response.StatusCode ∧ response.StatusCode < 300 then none
  else some (.status response.StatusCode response.Body.data)

/-- The number of characters up to the end of the first JSON value of the
text (the whole text when it has none). -/
def firstValueLength (text : String) : Nat :=
  match scan text with
  | .ok _ rest => text.data.length - rest.length
  | _ => text.data.length

/-- What `buf` holds once a decoder has read the first value of the body through
`io.TeeReader(response.Body, &buf)`: the data the decoder was handed, which is
the text of the first value and `ahead` characters more (or fewer, when the
data ends before).  A `bytes.Buffer` ends without a read error. -/
def Body.buffered (body : Body) : Body :=
  { data := String.mk (body.data.data.take (firstValueLength body.data + body.ahead))
    err := none }

/-! ## The operations of `pkg/brood/user.go`

An operation returns the pair of its result and its error (`none` is `nil`).
The request an operation builds is a definition of its own, so that the
headers, the body and the query of the outgoing request can be stated. -/

/-- The two headers of a bearer-authenticated request. -/
def addBearer (request : Request) (token : String) : Request :=
  { request with
    Header := (request.Header.Add "Authorization" ("Bearer " ++ token)).Add
      "Accept" "application/json" }

/-- The two headers of a form body, as the client sets them by hand. -/
def addForm (request : Request) (encodedData : String) : Request :=
  { request with
    Header := (request.Header.Add "Content-Type" "application/x-www-form-urlencoded").Add
      "Content-Length" (Itoa (len encodedData)) }

/-- The lines from the tee to the return that `CreateUser`, `FindUser`,
`GetUser`, `VerifyUser` and `ChangePassword` share word for word: the status
check, the decoding into `User`, and the second decoding of the buffered copy
for `user_id` when the id came out empty. -/
def userResult (response : Response) : User × Option Error :=
  match HTTPStatusCheck response with
  | some statusErr => ({}, some statusErr)
  | none =>
    match Decode User.target response.Body {} with
    | (user, some decodeErr) => (user, some decodeErr)
    | (user, none) =>
      if user.Id = "" then
        match getUserID response.Body.buffered with
        | (_, some decodeErr) => (user, some decodeErr)
        | (userID, none) => ({ user with Id := userID }, none)
      else (user, none)

/-- The request of `Auth`. -/
def AuthRequest (parse : URLParser) (client : BroodClient) (token : String) :
    Except Error Request :=
  match NewRequest parse "GET" client.Routes.Auth none with
  | .error requestErr => .error requestErr
  | .ok request => .ok (addBearer request token)

/-- The operation `Auth`; `authUser` is the type `AuthUser` as a target of
`Decode` (its declaration is missing). -/
def Auth {α : Type} (authUser : Target α) (parse : URLParser) (client : BroodClient)
    (token : String) : α × Option Error :=
  match AuthRequest parse client token with
  | .error requestErr => (authUser.zero, some requestErr)
  | .ok request =>
    match client.HTTPClient.Do request with
    | .error err => (authUser.zero, some err)
    | .ok response =>
      match HTTPStatusCheck response with
      | some statusErr => (authUser.zero, some statusErr)
      | none => Decode authUser response.Body authUser.zero

/-- The form of `CreateUser`. -/
def CreateUserData (username email password : String) : Values :=
  ((Values.empty.Add "username" username).Add "email" email).Add "password" password

/-- The request of `CreateUser` (built by `PostForm`). -/
def CreateUserRequest (parse : URLParser) (client : BroodClient)
    (username email password : String) : Except Error Request :=
  PostFormRequest parse client.Routes.User (CreateUserData username email password)

/-- The operation `CreateUser`. -/
def CreateUser (parse : URLParser) (client : BroodClient) (username email password : String) :
    User × Option Error :=
  match client.HTTPClient.PostForm parse client.Routes.User
      (CreateUserData username email password) with
  | .error err => ({}, some err)
  | .ok response => userResult response

/-- The form of `GenerateToken`. -/
def GenerateTokenData (username password : String) : Values :=
  (Values.empty.Add "username" username).Add "password" password

/-- The request of `GenerateToken` (built by `PostForm`). -/
def GenerateTokenRequest (parse : URLParser) (client : BroodClient)
    (username password : String) : Except Error Request :=
  PostFormRequest parse client.Routes.Token (GenerateTokenData username password)

/-- The operation `GenerateToken`. -/
def GenerateToken (parse : URLParser) (client : BroodClient) (username password : String) :
    String × Option Error :=
  match client.HTTPClient.PostForm parse client.Routes.Token
      (GenerateTokenData username password) with
  | .error err => ("", some err)
  | .ok response =>
    match HTTPStatusCheck response with
    | some statusErr => ("", some statusErr)
    | none =>
      ((Decode UserGeneratedToken.target response.Body {}).1.Id,
        (Decode UserGeneratedToken.target response.Body {}).2)

/-- The form of `AnnotateToken`, encoded. -/
def AnnotateTokenData (token tokenType note : String) : String :=
  (((Values.empty.Add "access_token" token).Add "token_type" tokenType).Add
    "token_note" note).Encode

/-- The request of `AnnotateToken`. -/
def AnnotateTokenRequest (parse : URLParser) (client : BroodClient)
    (token tokenType note : String) : Except Error Request :=
  match NewRequest parse "PUT" client.Routes.Token
      (some (AnnotateTokenData token tokenType note)) with
  | .error err => .error err
  | .ok request => .ok (addForm request (AnnotateTokenData token tokenType note))

/-- The function `ioutil.ReadAll`: the whole data, or the read error. -/
def ReadAll (body : Body) : Except Error String :=
  match body.err with
  | some e => .error e
  | none => .ok body.data

/-- The operation `AnnotateToken`. -/
def AnnotateToken (parse : URLParser) (client : BroodClient) (token tokenType note : String) :
    String × Option Error :=
  match AnnotateTokenRequest parse client token tokenType note with
  | .error err => ("", some err)
  | .ok request =>
    match client.HTTPClient.Do request with
    | .error err => ("", some err)
    | .ok response =>
      match HTTPStatusCheck response with
      | some statusErr => ("", some statusErr)
      | none =>
        match ReadAll response.Body with
        | .error err => ("", some err)
        | .ok tokenBytes => (tokenBytes, none)

/-- The request of `ListTokens`. -/
def ListTokensRequest (parse : URLParser) (client : BroodClient) (token : String) :
    Except Error Request :=
  match NewRequest parse "GET" client.Routes.ListTokens none with
  | .error requestErr => .error requestErr
  | .ok request => .ok (addBearer request token)

/-- The operation `ListTokens`; `tokensList` is the type `UserTokensList` as a
target of `Decode` (its declaration is missing). -/
def ListTokens {β : Type} (tokensList : Target β) (parse : URLParser) (client : BroodClient)
    (token : String) : β × Option Error :=
  match ListTokensRequest parse client token with
  | .error requestErr => (tokensList.zero, some requestErr)
  | .ok request =>
    match client.HTTPClient.Do request with
    | .error err => (tokensList.zero, some err)
    | .ok response =>
      match HTTPStatusCheck response with
      | some statusErr => (tokensList.zero, some statusErr)
      | none => Decode tokensList response.Body tokensList.zero

/-- The query of `FindUser`: the query the route has, and then every caller's
parameter added to it.  The parameters are the entries of the Go map, in the
order the loop meets them. -/
def FindUserQuery (u : URL) (queryParameters : List (String × String)) : Values :=
  queryParameters.foldl (fun query kv => Values.Add query kv.1 kv.2) u.Query

/-- The request of `FindUser`. -/
def FindUserRequest (parse : URLParser) (client : BroodClient) (token : String)
    (queryParameters : List (String × String)) : Except Error Request :=
  match NewRequest parse "GET" client.Routes.FindUser none with
  | .error requestErr => .error requestErr
  | .ok request =>
    .ok { addBearer request token with
          URL := { request.URL with
                   RawQuery := (FindUserQuery request.URL queryParameters).Encode } }

/-- The operation `FindUser`. -/
def FindUser (parse : URLParser) (client : BroodClient) (token : String)
    (queryParameters : List (String × String)) : User × Option Error :=
  match FindUserRequest parse client token queryParameters with
  | .error requestErr => ({}, some requestErr)
  | .ok request =>
    match client.HTTPClient.Do request with
    | .error err => ({}, some err)
    | .ok response => userResult response

/-- The request of `GetUser`. -/
def GetUserRequest (parse : URLParser) (client : BroodClient) (token : String) :
    Except Error Request :=
  match NewRequest parse "GET" client.Routes.User none with
  | .error requestErr => .error requestErr
  | .ok request => .ok (addBearer request token)

/-- The operation `GetUser`. -/
def GetUser (parse : URLParser) (client : BroodClient) (token : String) :
    User × Option Error :=
  match GetUserRequest parse client token with
  | .error requestErr => ({}, some requestErr)
  | .ok request =>
    match client.HTTPClient.Do request with
    | .error err => ({}, some err)
    | .ok response => userResult response

/-- The form of `VerifyUser`, encoded. -/
def VerifyUserData (code : String) : String :=
  (Values.empty.Add "verification_code" code).Encode

/-- The request of `VerifyUser`. -/
def VerifyUserRequest (parse : URLParser) (client : BroodClient) (token code : String) :
    Except Error Request :=
  match NewRequest parse "POST" client.Routes.ConfirmRegistration
      (some (VerifyUserData code)) with
  | .error requestErr => .error requestErr
  | .ok request => .ok (addBearer (addForm request (VerifyUserData code)) token)

/-- The operation `VerifyUser`. -/
def VerifyUser (parse : URLParser) (client : BroodClient) (token code : String) :
    User × Option Error :=
  match VerifyUserRequest parse client token code with
  | .error requestErr => ({}, some requestErr)
  | .ok request =>
    match client.HTTPClient.Do request with
    | .error err => ({}, some err)
    | .ok response => userResult response

/-- The form of `ChangePassword`, encoded. -/
def ChangePasswordData (currentPassword newPassword : String) : String :=
  ((Values.empty.Add "current_password" currentPassword).Add
    "new_password" newPassword).Encode

/-- The request of `ChangePassword`. -/
def ChangePasswordRequest (parse : URLParser) (client : BroodClient)
    (token currentPassword newPassword : String) : Except Error Request :=
  match NewRequest parse "POST" client.Routes.ChangePassword
      (some (ChangePasswordData currentPassword newPassword)) with
  | .error requestErr => .error requestErr
  | .ok request =>
    .ok (addBearer (addForm request (ChangePasswordData currentPassword newPassword)) token)

/-- The operation `ChangePassword`. -/
def ChangePassword (parse : URLParser) (client : BroodClient)
    (token currentPassword newPassword : String) : User × Option Error :=
  match ChangePasswordRequest parse client token currentPassword newPassword with
  | .error requestErr => ({}, some requestErr)
  | .ok request =>
    match client.HTTPClient.Do request with
    | .error err => ({}, some err)
    | .ok response => userResult response

/-! ## Closed examples: a client, a server -/

/-- A route table. -/
def testRoutes : BroodRoutes where
  Auth := "https://auth.test/auth"
  User := "https://auth.test/user"
  Token := "https://auth.test/token"
  ListTokens := "https://auth.test/tokens"
  FindUser := "https://auth.test/user/find"
  ConfirmRegistration := "https://auth.test/confirm"
  ChangePassword := "https://auth.test/password/change"

/-- A client whose transport answers every request with the given response. -/
def clientAnswering (response : Response) : BroodClient where
  Routes := testRoutes
  HTTPClient := { Do := fun _ => .ok response }

/-- A 404 whose body is no JSON. -/
def notFound : Response :=
  { StatusCode := 404, Body := { data := "not found" } }

/-- A 500 whose body is a JSON object. -/
def serverError : Response :=
  { StatusCode := 500, Body := { data := "\x7b\"id\":\"u1\"\x7d" } }

/-- A 200 whose body has a `user_id` and no `id`. -/
def fallbackResponse : Response :=
  { StatusCode := 200
    Body := { data := "\x7b\"user_id\":\"u1\",\"username\":\"alice\"\x7d\n", ahead := 1 } }

/-- A 200 whose body has neither an `id` nor a `user_id`. -/
def silentResponse : Response :=
  { StatusCode := 200
    Body := { data := "\x7b\"username\":\"alice\",\"verified\":true\x7d" } }

/-- A route table whose find-user route carries a query of its own. -/
def routesWithQuery : BroodRoutes :=
  { testRoutes with FindUser := "https://auth.test/user/find?username=bob" }

/-- A client over `routesWithQuery` whose transport answers every request with
the given response. -/
def clientWithQuery (response : Response) : BroodClient where
  Routes := routesWithQuery
  HTTPClient := { Do := fun _ => .ok response }

/-- The request `FindUser` builds for the parameters `username` = `alice`,
`application_id` = `app-1`. -/
def findUserExample : Request :=
  { Method := "GET"
    URL := { Scheme := "https", Host := "auth.test", Path := "/user/find",
             RawQuery := "application_id=app-1&username=alice" }
    Header := [("Authorization", "Bearer tok"), ("Accept", "application/json")] }

/-- The request `FindUser` builds over `routesWithQuery` for the parameter
`username` = `alice`. -/
def findUserDouble : Request :=
  { Method := "GET"
    URL := { Scheme := "https", Host := "auth.test", Path := "/user/find",
             RawQuery := "username=bob&username=alice" }
    Header := [("Authorization", "Bearer tok"), ("Accept", "application/json")] }

/-- The request `FindUser` builds over `routesWithQuery` for the parameters
`username` = `alice`, `email` = `a@b.test`. -/
def findUserTriple : Request :=
  { Method := "GET"
    URL := { Scheme := "https", Host := "auth.test", Path := "/user/find",
             RawQuery := "email=a%40b.test&username=bob&username=alice" }
    Header := [("Authorization", "Bearer tok"), ("Accept", "application/json")] }

/-- The request `Auth` builds for the token `tok`. -/
def authExample : Request :=
  { Method := "GET"
    URL := { Scheme := "https", Host := "auth.test", Path := "/auth" }
    Header := [("Authorization", "Bearer tok"), ("Accept", "application/json")] }

/-- The request `ListTokens` builds for the token `tok`. -/
def listTokensExample : Request :=
  { Method := "GET"
    URL := { Scheme := "https", Host := "auth.test", Path := "/tokens" }
    Header := [("Authorization", "Bearer tok"), ("Accept", "application/json")] }

/-- The request `GetUser` builds for the token `tok`. -/
def getUserExample : Request :=
  { Method := "GET"
    URL := { Scheme := "https", Host := "auth.test", Path := "/user" }
    Header := [("Authorization", "Bearer tok"), ("Accept", "application/json")] }

/-- The request `ChangePassword` builds for the token `tok` and the passwords
`old` and `new`. -/
def changePasswordExample : Request :=
  { Method := "POST"
    URL := { Scheme := "https", Host := "auth.test", Path := "/password/change" }
    Header := [("Content-Type", "application/x-www-form-urlencoded"),
      ("Content-Length", "37"), ("Authorization", "Bearer tok"),
      ("Accept", "application/json")]
    Body := "current_password=old&new_password=new"
    ContentLength := 37 }

/-- The request `VerifyUser` builds for the token `tok` and the code `1234`. -/
def verifyExample : Request :=
  { Method := "POST"
    URL := { Scheme := "https", Host := "auth.test", Path := "/confirm" }
    Header := [("Content-Type", "application/x-www-form-urlencoded"),
      ("Content-Length", "22"), ("Authorization", "Bearer tok"),
      ("Accept", "application/json")]
    Body := "verification_code=1234"
    ContentLength := 22 }

/-- The request `AnnotateToken` builds for the token `tok`, the type `bot` and
the note `ci`. -/
def annotateExample : Request :=
  { Method := "PUT"
    URL := { Scheme := "https", Host := "auth.test", Path := "/token" }
    Header := [("Content-Type", "application/x-www-form-urlencoded"),
      ("Content-Length", "45")]
    Body := "access_token=tok&token_note=ci&token_type=bot"
    ContentLength := 45 }

/-- The request `CreateUser` builds for `alice`, `a@b.test`, `pw`. -/
def createExample : Request :=
  { Method := "POST"
    URL := { Scheme := "https", Host := "auth.test", Path := "/user" }
    Header := [("Content-Type", "application/x-www-form-urlencoded")]
    Body := "email=a%40b.test&password=pw&username=alice"
    ContentLength := 43 }

/-! ## Notions of the statements -/

/-- The operation built its request and the transport answered it with
`response`. -/
def Answers (client : BroodClient) (request : Except Error Request) (response : Response) :
    Prop :=
  ∃ req, request = .ok req ∧ client.HTTPClient.Do req = .ok response

/-- The status is in the success range. -/
def Response.success (response : Response) : Bool :=
  decide (200 ≤ response.StatusCode) && decide (response.StatusCode < 300)

/-- The object key names the field for `Unmarshal`: the two are equal up to the
folding of letter case. -/
def names (key field : String) : Bool :=
  decide (foldName key = foldName field)

/-- The value is `null` or a string. -/
def JSON.strOrNull : JSON → Bool
  | .null => true
  | .str _ => true
  | _ => false

/-- The value is `null`, `true` or `false`. -/
def JSON.boolOrNull : JSON → Bool
  | .null => true
  | .bool _ => true
  | _ => false

/-- The value is `null` or the empty string. -/
def JSON.emptyOrNull : JSON → Bool
  | .null => true
  | .str s => decide (s = "")
  | _ => false

/-- The value is `null` or the string `u`. -/
def JSON.nullOrStr (u : String) : JSON → Bool
  | .null => true
  | .str s => decide (s = u)
  | _ => false

/-- The value is the string `u`. -/
def JSON.isStr (u : String) : JSON → Bool
  | .str s => decide (s = u)
  | _ => false

/-- Every member that names a field of `User` other than the id carries a value
of the field's type, or `null`. -/
def fitsUser (kvs : List (String × JSON)) : Bool :=
  kvs.all fun kv =>
    (!names kv.1 "username" || kv.2.strOrNull) &&
    (!names kv.1 "email" || kv.2.strOrNull) &&
    (!names kv.1 "verified" || kv.2.boolOrNull)

/-- The object has no id: every member that names `id` carries `null` or the
empty string. -/
def lacksId (kvs : List (String × JSON)) : Bool :=
  kvs.all fun kv => !names kv.1 "id" || kv.2.emptyOrNull

/-- The object has the user id `u`: a member that names `user_id` carries the
string `u`, and every member that names `user_id` carries `u` or `null`. -/
def hasUserId (kvs : List (String × JSON)) (u : String) : Bool :=
  (kvs.any fun kv => names kv.1 "user_id" && kv.2.isStr u) &&
    kvs.all fun kv => !names kv.1 "user_id" || kv.2.nullOrStr u

/-- No member of the object names `user_id`. -/
def lacksUserId (kvs : List (String × JSON)) : Bool :=
  kvs.all fun kv => !names kv.1 "user_id"

/-- A digit of a `\u00XX` escape. -/
def hexdigit (n : Nat) : Char :=
  if n < 10 then Char.ofNat (48 + n) else Char.ofNat (87 + n)

/-- One character of a string as JSON text writes it: the quote and the
backslash behind a backslash, a control character as `\u00XX`. -/
def quoteChar (c : Char) : List Char :=
  if c = '"' then ['\\', '"']
  else if c = '\\' then ['\\', '\\']
  else if c.toNat < 0x20 then
    ['\\', 'u', '0', '0', hexdigit (c.toNat / 16), hexdigit (c.toNat % 16)]
  else [c]

/-- The piece the scanner reads back from `quoteChar`. -/
def pieceOf (c : Char) : Piece :=
  if c.toNat < 0x20 then .unit c.toNat else .ch c

/-- The JSON text of the envelope with the one member `id`, a string. -/
def idEnvelope (s : String) : String :=
  String.mk (['\x7b', '"', 'i', 'd', '"', ':', '"'] ++ s.data.flatMap quoteChar ++ ['"', '\x7d'])

/-- The text is one JSON value and nothing but white space after it: a
well-formed JSON text. -/
def isJSONText (text : String) : Bool :=
  match scan text with
  | .ok _ rest => rest.all isSpace
  | _ => false

/-- The scan of the text finds a first value. -/
def scans (text : String) : Bool :=
  match scan text with
  | .ok _ _ => true
  | _ => false

/-! ## Lemmas: the decoder -/

/-- A key finds only a field of the list, and one it names. -/
theorem findField_some {α : Type} (fields : List (Field α)) (key : String) (f : Field α)
    (h : findField fields key = some f) : f ∈ fields ∧ names key f.name = true := by
  unfold findField at h
  cases h1 : fields.find? (fun f => f.name = key) with
  | some g =>
    rw [h1] at h
    simp only [Option.some.injEq] at h
    subst h
    have hp := List.find?_some h1
    have hm := List.mem_of_find?_eq_some h1
    simp only [decide_eq_true_eq] at hp
    exact ⟨hm, by simp [names, hp]⟩
  | none =>
    rw [h1] at h
    simp only at h
    have hp := List.find?_some h
    have hm := List.mem_of_find?_eq_some h
    simp only [decide_eq_true_eq] at hp
    exact ⟨hm, by simp [names, hp]⟩

/-- No new error: the saved one stays. -/
theorem saveError_none (saved : Option Error) : saveError saved none = saved := by
  cases saved <;> rfl

/-- An object without id whose members fit `User` is stored without error and
leaves the id empty. -/
theorem unmarshalObject_user (kvs : List (String × JSON)) :
    fitsUser kvs = true → lacksId kvs = true →
    ∀ (x : User) (saved : Option Error), x.Id = "" →
      (unmarshalObject User.fields kvs x saved).2 = saved ∧
      (unmarshalObject User.fields kvs x saved).1.Id = "" := by
  induction kvs with
  | nil => intro _ _ x saved hx; exact ⟨rfl, hx⟩
  | cons kv rest ih =>
    intro hfit hid x saved hx
    obtain ⟨k, v⟩ := kv
    simp only [fitsUser, lacksId, List.all_cons, Bool.and_eq_true, Bool.or_eq_true,
      Bool.not_eq_true'] at hfit hid
    obtain ⟨⟨⟨hu, he⟩, hv⟩, hfit'⟩ := hfit
    obtain ⟨hi, hid'⟩ := hid
    have ih' := ih (by simpa [fitsUser] using hfit') (by simpa [lacksId] using hid')
    unfold unmarshalObject
    cases hf : findField User.fields k with
    | none => exact ih' x saved hx
    | some f =>
      simp only
      obtain ⟨hm, hn⟩ := findField_some _ _ _ hf
      simp only [User.fields, List.mem_cons, List.mem_singleton, List.not_mem_nil, or_false] at hm
      rcases hm with rfl | rfl | rfl | rfl
      · simp only [hn, Bool.true_eq_false, false_or] at hi
        cases v <;> simp [JSON.emptyOrNull] at hi
        · simpa [storeField, saveError_none] using ih' x saved hx
        · subst hi
          have := ih' { x with Id := "" } saved rfl
          simpa [storeField, saveError_none] using this
      · simp only [hn, Bool.true_eq_false, false_or] at hu
        cases v <;> simp [JSON.strOrNull] at hu
        · simpa [storeField, saveError_none] using ih' x saved hx
        · rename_i s
          have := ih' { x with Username := s } saved hx
          simpa [storeField, saveError_none] using this
      · simp only [hn, Bool.true_eq_false, false_or] at he
        cases v <;> simp [JSON.strOrNull] at he
        · simpa [storeField, saveError_none] using ih' x saved hx
        · rename_i s
          have := ih' { x with Email := s } saved hx
          simpa [storeField, saveError_none] using this
      · simp only [hn, Bool.true_eq_false, false_or] at hv
        cases v <;> simp [JSON.boolOrNull] at hv
        · simpa [storeField, saveError_none] using ih' x saved hx
        · rename_i b
          have := ih' { x with Verified := b } saved hx
          simpa [storeField, saveError_none] using this

/-- An object whose `user_id` members carry `u` or `null` is stored into the
wrapper without error; the wrapper holds `u` when one of them carries `u`. -/
theorem unmarshalObject_wrapper (u : String) (kvs : List (String × JSON)) :
    (kvs.all fun kv => !names kv.1 "user_id" || kv.2.nullOrStr u) = true →
    ∀ (x : UserIDWrapper) (saved : Option Error),
      (unmarshalObject UserIDWrapper.fields kvs x saved).2 = saved ∧
      (unmarshalObject UserIDWrapper.fields kvs x saved).1.UserID =
        if (kvs.any fun kv => names kv.1 "user_id" && kv.2.isStr u) then u else x.UserID := by
  induction kvs with
  | nil => intro _ x saved; exact ⟨rfl, by simp [unmarshalObject]⟩
  | cons kv rest ih =>
    intro hall x saved
    obtain ⟨k, v⟩ := kv
    simp only [List.all_cons, Bool.and_eq_true, Bool.or_eq_true, Bool.not_eq_true'] at hall
    obtain ⟨hk, hall'⟩ := hall
    have ih' := ih hall'
    unfold unmarshalObject
    cases hf : findField UserIDWrapper.fields k with
    | none =>
      have hn : names k "user_id" = false := by
        cases hnk : names k "user_id" with
        | false => rfl
        | true =>
          exfalso
          simp only [findField, UserIDWrapper.fields, List.find?_cons, List.find?_nil] at hf
          simp only [names, decide_eq_true_eq] at hnk
          simp [hnk] at hf
          split at hf <;> simp at hf
      have h2 := ih' x saved
      rw [List.any_cons, hn, Bool.false_and, Bool.false_or]
      exact h2
    | some f =>
      simp only
      obtain ⟨hm, hn⟩ := findField_some _ _ _ hf
      simp only [UserIDWrapper.fields, List.mem_singleton] at hm
      subst hm
      simp only [hn, Bool.true_eq_false, false_or] at hk
      rw [List.any_cons, hn, Bool.true_and]
      cases v <;> simp [JSON.nullOrStr] at hk
      · have h2 := ih' x saved
        simp only [storeField, saveError_none, JSON.isStr, Bool.false_or]
        exact h2
      · subst hk
        rename_i s
        have h2 := ih' { UserID := s } saved
        simp only [storeField, saveError_none, JSON.isStr, decide_True, Bool.true_or, if_true]
        refine ⟨h2.1, ?_⟩
        rw [h2.2]
        split <;> rfl

/-- The scan of a non-empty text, one step unfolded. -/
theorem scanFrom_cons (m : Mode) (st : List Frame) (c : Char) (cs : List Char) :
    scanFrom m st (c :: cs) =
      match step m st c with
      | .more m2 st2 => scanFrom m2 st2 cs
      | .done v consumed => .ok v (if consumed then cs else c :: cs)
      | .fail => .invalid := by
  rfl

/-- A step that goes on. -/
theorem scanFrom_more (m m2 : Mode) (st st2 : List Frame) (c : Char) (cs : List Char)
    (h : step m st c = .more m2 st2) : scanFrom m st (c :: cs) = scanFrom m2 st2 cs := by
  rw [scanFrom_cons, h]

/-- The scan of the envelope up to the opening quote of the value. -/
theorem envelope_head (cs : List Char) :
    scanFrom (.value false) [] ('\x7b' :: '"' :: 'i' :: 'd' :: '"' :: ':' :: '"' :: cs) =
      scanFrom (.text false [] .plain) [.obj [] (some "id")] cs := by
  rfl

/-- The scan of the envelope from the closing quote of the value. -/
theorem envelope_tail (s : String) :
    scanFrom (.text false (s.data.map pieceOf) .plain) [.obj [] (some "id")] ['"', '\x7d'] =
      .ok (.object [("id", .str (String.mk (combine (s.data.map pieceOf))))]) [] := by
  rfl

/-- A digit written by `hexdigit` is read back by `hexVal`. -/
theorem hexVal_hexdigit (n : Nat) (h : n < 16) : hexVal (hexdigit n) = some n := by
  interval_cases n <;> rfl

/-- The scanner reads back one quoted character. -/
theorem scanFrom_quoteChar (isKey : Bool) (st : List Frame) (c : Char) (acc : List Piece)
    (tail : List Char) :
    scanFrom (.text isKey acc .plain) st (quoteChar c ++ tail) =
      scanFrom (.text isKey (acc ++ [pieceOf c]) .plain) st tail := by
  unfold quoteChar
  by_cases h1 : c = '"'
  · subst h1
    rfl
  · by_cases h2 : c = '\\'
    · subst h2
      rfl
    · by_cases h3 : c.toNat < 0x20
      · have hhi : c.toNat / 16 < 16 := by omega
        have hlo : c.toNat % 16 < 16 := by omega
        have hsum : c.toNat / 16 * 16 + c.toNat % 16 = c.toNat := by omega
        simp only [h1, h2, h3, if_true, if_false, List.cons_append, List.nil_append]
        have e1 : step (.text isKey acc .plain) st '\\' = .more (.text isKey acc .esc) st := rfl
        have e2 : step (.text isKey acc .esc) st 'u' = .more (.text isKey acc (.hex 4 0)) st := rfl
        have e3 : step (.text isKey acc (.hex 4 0)) st '0' =
            .more (.text isKey acc (.hex 3 0)) st := rfl
        have e4 : step (.text isKey acc (.hex 3 0)) st '0' =
            .more (.text isKey acc (.hex 2 0)) st := rfl
        have e5 : step (.text isKey acc (.hex 2 0)) st (hexdigit (c.toNat / 16)) =
            .more (.text isKey acc (.hex 1 (c.toNat / 16))) st := by
          simp [step, stepText, hexVal_hexdigit _ hhi]
        have e6 : step (.text isKey acc (.hex 1 (c.toNat / 16))) st (hexdigit (c.toNat % 16)) =
            .more (.text isKey (acc ++ [.unit c.toNat]) .plain) st := by
          simp [step, stepText, hexVal_hexdigit _ hlo, hsum]
        rw [scanFrom_more _ _ _ _ _ _ e1, scanFrom_more _ _ _ _ _ _ e2,
          scanFrom_more _ _ _ _ _ _ e3, scanFrom_more _ _ _ _ _ _ e4,
          scanFrom_more _ _ _ _ _ _ e5, scanFrom_more _ _ _ _ _ _ e6]
        simp only [pieceOf, h3, if_true]
      · simp only [h1, h2, h3, if_false, List.cons_append, List.nil_append]
        have e1 : step (.text isKey acc .plain) st c =
            .more (.text isKey (acc ++ [.ch c]) .plain) st := by
          simp [step, stepText, h1, h2, h3]
        rw [scanFrom_more _ _ _ _ _ _ e1]
        simp only [pieceOf, h3, if_false]

/-- The scanner reads back a quoted text. -/
theorem scanFrom_quoted (isKey : Bool) (st : List Frame) (cs : List Char) :
    ∀ (acc : List Piece) (tail : List Char),
      scanFrom (.text isKey acc .plain) st (cs.flatMap quoteChar ++ tail) =
        scanFrom (.text isKey (acc ++ cs.map pieceOf) .plain) st tail := by
  induction cs with
  | nil => intro acc tail; simp
  | cons c rest ih =>
    intro acc tail
    simp only [List.flatMap_cons, List.append_assoc, List.map_cons]
    rw [scanFrom_quoteChar, ih]
    simp

/-- The pieces read back from a quoted text combine to the text. -/
theorem combineFrom_pieces (cs : List Char) : combineFrom none (cs.map pieceOf) = cs := by
  induction cs with
  | nil => rfl
  | cons c rest ih =>
    by_cases h : c.toNat < 0x20
    · have h1 : ¬(0xD800 ≤ c.toNat ∧ c.toNat < 0xDC00) := by omega
      have h2 : isSurrogate c.toNat = false := by
        simp only [isSurrogate, Bool.and_eq_false_iff, decide_eq_false_iff_not]
        left; omega
      simp only [List.map_cons, pieceOf, h, if_true, combineFrom, h1, if_false, unitChar, h2,
        ih, Char.ofNat_toNat]
      simp
    · simp only [List.map_cons, pieceOf, h, if_false, combineFrom, ih]

/-- The scanner reads the envelope of `s` as the object with the member `id` =
`s`. -/
theorem scan_idEnvelope (s : String) :
    scan (idEnvelope s) = .ok (.object [("id", .str s)]) [] := by
  unfold scan idEnvelope
  simp only [List.cons_append, List.nil_append]
  rw [envelope_head, scanFrom_quoted, List.nil_append, envelope_tail]
  simp [combine, combineFrom_pieces]

/-- A value that completes the top level consumes its last character. -/
theorem endValue_done (v v2 : JSON) (st : List Frame) (b : Bool)
    (h : endValue v st = .done v2 b) : b = true := by
  unfold endValue at h
  split at h <;> simp_all

theorem stepAfter_done (st : List Frame) (c : Char) (v : JSON) (b : Bool)
    (h : stepAfter st c = .done v b) : b = true := by
  unfold stepAfter at h
  split at h
  · simp at h
  · split at h
    · split at h
      · simp at h
      · split at h
        · exact endValue_done _ _ _ _ h
        · simp at h
    · split at h
      · simp at h
      · split at h
        · exact endValue_done _ _ _ _ h
        · simp at h
    · simp at h

theorem beginValue_done (st : List Frame) (c : Char) (v : JSON) (b : Bool) :
    beginValue st c ≠ .done v b := by
  unfold beginValue
  repeat' split
  all_goals simp

theorem endNumber_done (lit : List Char) (st : List Frame) (c : Char) (v : JSON)
    (h : endNumber lit st c = .done v false) : st = [] ∧ v = .number (String.mk lit) := by
  unfold endNumber at h
  split at h
  · simp only [Step.done.injEq, and_true] at h
    exact ⟨rfl, h.symm⟩
  · split at h
    · exact absurd (stepAfter_done _ _ _ _ h) (by simp)
    · exact absurd (endValue_done _ _ _ _ h) (by simp)

theorem stepNum_done (ns : NumState) (lit : List Char) (st : List Frame) (c : Char) (v : JSON)
    (h : stepNum ns lit st c = .done v false) :
    st = [] ∧ ns.accepting = true ∧ v = .number (String.mk lit) := by
  unfold stepNum at h
  cases ns <;> simp only at h <;> (repeat' split at h) <;>
    first
    | (simp at h)
    | exact ⟨(endNumber_done _ _ _ _ h).1, rfl, (endNumber_done _ _ _ _ h).2⟩

theorem stepText_done (isKey : Bool) (acc : List Piece) (ss : StrState) (st : List Frame)
    (c : Char) (v : JSON) (b : Bool) (h : stepText isKey acc ss st c = .done v b) :
    b = true := by
  unfold stepText at h
  cases ss <;> simp only at h <;> (repeat' split at h) <;>
    first
    | (simp at h)
    | exact endValue_done _ _ _ _ h

/-- Only a top-level number ends before the character that is read. -/
theorem step_done (m : Mode) (st : List Frame) (c : Char) (v : JSON)
    (h : step m st c = .done v false) :
    ∃ ns lit, m = .num ns lit ∧ st = [] ∧ ns.accepting = true ∧
      v = .number (String.mk lit) := by
  unfold step at h
  cases m with
  | num ns lit =>
    simp only at h
    exact ⟨ns, lit, rfl, stepNum_done ns lit st c v h⟩
  | text isKey acc ss =>
    simp only at h
    exact absurd (stepText_done _ _ _ _ _ _ _ h) (by simp)
  | after =>
    simp only at h
    exact absurd (stepAfter_done _ _ _ _ h) (by simp)
  | value mayClose =>
    simp only at h
    (repeat' split at h) <;>
      first
      | (simp at h)
      | exact absurd (endValue_done _ _ _ _ h) (by simp)
      | exact absurd h (beginValue_done _ _ _ _)
  | key mayClose =>
    simp only at h
    (repeat' split at h) <;>
      first
      | (simp at h)
      | exact absurd (endValue_done _ _ _ _ h) (by simp)
  | word rest v2 =>
    simp only at h
    (repeat' split at h) <;>
      first
      | (simp at h)
      | exact absurd (endValue_done _ _ _ _ h) (by simp)
  | colon =>
    simp only at h
    (repeat' split at h) <;> simp at h

/-- The scan depends only on the text of the first value: cut anywhere after
it, the text scans to the same value. -/
theorem scanFrom_truncated (xs : List Char) :
    ∀ (m : Mode) (st : List Frame) (v : JSON) (rest : List Char),
      scanFrom m st xs = .ok v rest →
      ∃ used, xs = used ++ rest ∧
        ∀ k, scanFrom m st (used ++ rest.take k) = .ok v (rest.take k) := by
  induction xs with
  | nil =>
    intro m st v rest h
    unfold scanFrom at h
    split at h
    · split at h
      · simp only [Scan.ok.injEq] at h
        obtain ⟨rfl, rfl⟩ := h
        refine ⟨[], rfl, ?_⟩
        intro k
        simp [scanFrom, *]
      · simp at h
    · simp at h
  | cons c cs ih =>
    intro m st v rest h
    rw [scanFrom_cons] at h
    cases hs : step m st c with
    | more m2 st2 =>
      rw [hs] at h
      obtain ⟨used, hx, hk⟩ := ih m2 st2 v rest h
      refine ⟨c :: used, by rw [hx]; rfl, ?_⟩
      intro k
      rw [List.cons_append, scanFrom_cons, hs]
      exact hk k
    | fail => rw [hs] at h; simp at h
    | done v2 consumed =>
      rw [hs] at h
      simp only [Scan.ok.injEq] at h
      obtain ⟨rfl, hr⟩ := h
      cases consumed with
      | true =>
        simp only [if_true] at hr
        subst hr
        refine ⟨[c], rfl, ?_⟩
        intro k
        rw [List.cons_append, List.nil_append, scanFrom_cons, hs]
        rfl
      | false =>
        simp only [Bool.false_eq_true, if_false] at hr
        subst hr
        refine ⟨[], rfl, ?_⟩
        intro k
        obtain ⟨ns, lit, rfl, rfl, hacc, rfl⟩ := step_done m st c v2 hs
        cases k with
        | zero => simp [scanFrom, hacc]
        | succ j =>
          rw [List.nil_append, List.take_succ_cons, scanFrom_cons, hs]
          rfl

/-- What the first decoder returned, a decoder of the buffered copy returns
too. -/
theorem readValue_buffered (body : Body) (v : JSON)
    (h : readValue body = .ok v) : readValue body.buffered = .ok v := by
  unfold readValue at h
  cases hs : scan body.data with
  | invalid => simp [hs] at h
  | eof =>
    simp only [hs] at h
    cases he : body.err with
    | some e => simp [he] at h
    | none =>
      simp only [he] at h
      split at h <;> simp at h
  | ok v2 rest =>
    have hv : v2 = v := by
      simp only [hs] at h
      split at h
      · simpa using h
      · cases he : body.err <;> simp [he] at h
        exact h
    subst hv
    obtain ⟨used, hx, hk⟩ := scanFrom_truncated _ _ _ _ _ hs
    have hlen : firstValueLength body.data = used.length := by
      simp [firstValueLength, hs, hx]
    have hdata : body.buffered.data = String.mk (used ++ rest.take body.ahead) := by
      simp only [Body.buffered, hlen]
      rw [hx, List.take_append]
    have hscan : scan body.buffered.data = .ok v2 (rest.take body.ahead) := by
      rw [hdata]
      exact hk body.ahead
    unfold readValue
    rw [hscan]
    simp only [Body.buffered]
    split <;> rfl

/-- An object is complete at its closing brace: a read error after it does not
matter. -/
theorem readValue_object (body : Body) (kvs : List (String × JSON)) (rest : List Char)
    (h : scan body.data = .ok (.object kvs) rest) : readValue body = .ok (.object kvs) := by
  simp [readValue, h, JSON.isComposite]

/-- The status check passes a 2xx response. -/
theorem statusCheck_success (response : Response) (h : response.success = true) :
    HTTPStatusCheck response = none := by
  simp only [Response.success, Bool.and_eq_true, decide_eq_true_eq] at h
  simp [HTTPStatusCheck, h]

/-- The status check turns any other response into the status error. -/
theorem statusCheck_failure (response : Response) (h : response.success = false) :
    HTTPStatusCheck response = some (.status response.StatusCode response.Body.data) := by
  have h2 : ¬(200 ≤ response.StatusCode ∧ response.StatusCode < 300) := by
    intro hc
    simp [Response.success, hc] at h
  simp [HTTPStatusCheck, h2]

/-- The shared lines return the zero `User` and the status error. -/
theorem userResult_failure (response : Response) (h : response.success = false) :
    userResult response = ({}, some (.status response.StatusCode response.Body.data)) := by
  simp [userResult, statusCheck_failure response h]

/-- The first decoding of an object without id whose members fit `User`. -/
theorem decodeUser_object (body : Body) (kvs : List (String × JSON)) (rest : List Char)
    (hscan : scan body.data = .ok (.object kvs) rest)
    (hfit : fitsUser kvs = true) (hid : lacksId kvs = true) :
    (Decode User.target body {}).2 = none ∧ (Decode User.target body {}).1.Id = "" := by
  have h := unmarshalObject_user kvs hfit hid {} none rfl
  simpa [Decode, readValue_object body kvs rest hscan, User.target, unmarshalStruct] using h

/-- The second decoding, of the buffered copy, however far the reader was
ahead. -/
theorem getUserID_object (body : Body) (kvs : List (String × JSON)) (rest : List Char)
    (u : String) (hscan : scan body.data = .ok (.object kvs) rest)
    (hall : (kvs.all fun kv => !names kv.1 "user_id" || kv.2.nullOrStr u) = true) :
    getUserID body.buffered =
      (if (kvs.any fun kv => names kv.1 "user_id" && kv.2.isStr u) then u else "", none) := by
  have h := unmarshalObject_wrapper u kvs hall {} none
  have hb : readValue body.buffered = .ok (.object kvs) :=
    readValue_buffered body _ (readValue_object body kvs rest hscan)
  simp only [getUserID, Decode, hb, UserIDWrapper.target, unmarshalStruct]
  rw [h.1, h.2]

/-- The shared lines when the object has a `user_id`. -/
theorem userResult_fallback (response : Response) (kvs : List (String × JSON))
    (rest : List Char) (u : String) (hs : response.success = true)
    (hscan : scan response.Body.data = .ok (.object kvs) rest)
    (hfit : fitsUser kvs = true) (hid : lacksId kvs = true) (huid : hasUserId kvs u = true) :
    userResult response = ({ (Decode User.target response.Body {}).1 with Id := u }, none) := by
  obtain ⟨h2, h1⟩ := decodeUser_object response.Body kvs rest hscan hfit hid
  simp only [hasUserId, Bool.and_eq_true] at huid
  have hg := getUserID_object response.Body kvs rest u hscan huid.2
  rw [huid.1] at hg
  simp only [if_true] at hg
  unfold userResult
  rw [statusCheck_success response hs]
  simp only
  generalize Decode User.target response.Body {} = d at h1 h2 ⊢
  obtain ⟨user, e⟩ := d
  simp only at h1 h2
  subst h2
  simp [h1, hg]

/-- The shared lines when the object has no `user_id`. -/
theorem userResult_silent (response : Response) (kvs : List (String × JSON))
    (rest : List Char) (hs : response.success = true)
    (hscan : scan response.Body.data = .ok (.object kvs) rest)
    (hfit : fitsUser kvs = true) (hid : lacksId kvs = true) (huid : lacksUserId kvs = true) :
    userResult response = ({ (Decode User.target response.Body {}).1 with Id := "" }, none) := by
  obtain ⟨h2, h1⟩ := decodeUser_object response.Body kvs rest hscan hfit hid
  have hall : (kvs.all fun kv => !names kv.1 "user_id" || kv.2.nullOrStr "") = true := by
    simp only [lacksUserId, List.all_eq_true, Bool.not_eq_true'] at huid
    simp only [List.all_eq_true, Bool.or_eq_true, Bool.not_eq_true']
    intro kv hkv
    exact Or.inl (huid kv hkv)
  have hg := getUserID_object response.Body kvs rest "" hscan hall
  simp only [ite_self] at hg
  unfold userResult
  rw [statusCheck_success response hs]
  simp only
  generalize Decode User.target response.Body {} = d at h1 h2 ⊢
  obtain ⟨user, e⟩ := d
  simp only at h1 h2
  subst h2
  simp [h1, hg]

/-! ## Lemmas: an operation whose request was answered -/

theorem Auth_answered {α : Type} (authUser : Target α) (parse : URLParser)
    (client : BroodClient) (token : String) (response : Response)
    (h : Answers client (AuthRequest parse client token) response) :
    Auth authUser parse client token =
      match HTTPStatusCheck response with
      | some statusErr => (authUser.zero, some statusErr)
      | none => Decode authUser response.Body authUser.zero := by
  obtain ⟨req, hreq, hdo⟩ := h
  simp [Auth, hreq, hdo]

theorem ListTokens_answered {β : Type} (tokensList : Target β) (parse : URLParser)
    (client : BroodClient) (token : String) (response : Response)
    (h : Answers client (ListTokensRequest parse client token) response) :
    ListTokens tokensList parse client token =
      match HTTPStatusCheck response with
      | some statusErr => (tokensList.zero, some statusErr)
      | none => Decode tokensList response.Body tokensList.zero := by
  obtain ⟨req, hreq, hdo⟩ := h
  simp [ListTokens, hreq, hdo]

theorem CreateUser_answered (parse : URLParser) (client : BroodClient)
    (username email password : String) (response : Response)
    (h : Answers client (CreateUserRequest parse client username email password) response) :
    CreateUser parse client username email password = userResult response := by
  obtain ⟨req, hreq, hdo⟩ := h
  simp only [CreateUserRequest] at hreq
  simp [CreateUser, HTTPClient.PostForm, hreq, hdo]

theorem GenerateToken_answered (parse : URLParser) (client : BroodClient)
    (username password : String) (response : Response)
    (h : Answers client (GenerateTokenRequest parse client username password) response) :
    GenerateToken parse client username password =
      match HTTPStatusCheck response with
      | some statusErr => ("", some statusErr)
      | none =>
        ((Decode UserGeneratedToken.target response.Body {}).1.Id,
          (Decode UserGeneratedToken.target response.Body {}).2) := by
  obtain ⟨req, hreq, hdo⟩ := h
  simp only [GenerateTokenRequest] at hreq
  simp [GenerateToken, HTTPClient.PostForm, hreq, hdo]

theorem AnnotateToken_answered (parse : URLParser) (client : BroodClient)
    (token tokenType note : String) (response : Response)
    (h : Answers client (AnnotateTokenRequest parse client token tokenType note) response) :
    AnnotateToken parse client token tokenType note =
      match HTTPStatusCheck response with
      | some statusErr => ("", some statusErr)
      | none =>
        match ReadAll response.Body with
        | .error err => ("", some err)
        | .ok tokenBytes => (tokenBytes, none) := by
  obtain ⟨req, hreq, hdo⟩ := h
  simp [AnnotateToken, hreq, hdo]

theorem FindUser_answered (parse : URLParser) (client : BroodClient) (token : String)
    (queryParameters : List (String × String)) (response : Response)
    (h : Answers client (FindUserRequest parse client token queryParameters) response) :
    FindUser parse client token queryParameters = userResult response := by
  obtain ⟨req, hreq, hdo⟩ := h
  simp [FindUser, hreq, hdo]

theorem GetUser_answered (parse : URLParser) (client : BroodClient) (token : String)
    (response : Response) (h : Answers client (GetUserRequest parse client token) response) :
    GetUser parse client token = userResult response := by
  obtain ⟨req, hreq, hdo⟩ := h
  simp [GetUser, hreq, hdo]

theorem VerifyUser_answered (parse : URLParser) (client : BroodClient) (token code : String)
    (response : Response)
    (h : Answers client (VerifyUserRequest parse client token code) response) :
    VerifyUser parse client token code = userResult response := by
  obtain ⟨req, hreq, hdo⟩ := h
  simp [VerifyUser, hreq, hdo]

theorem ChangePassword_answered (parse : URLParser) (client : BroodClient)
    (token currentPassword newPassword : String) (response : Response)
    (h : Answers client
      (ChangePasswordRequest parse client token currentPassword newPassword) response) :
    ChangePassword parse client token currentPassword newPassword = userResult response := by
  obtain ⟨req, hreq, hdo⟩ := h
  simp [ChangePassword, hreq, hdo]

/-- The envelope decodes into the token with that id. -/
theorem decodeToken_envelope (body : Body) (s : String) (rest : List Char)
    (hscan : scan body.data = .ok (.object [("id", .str s)]) rest) :
    Decode UserGeneratedToken.target body {} = ({ Id := s }, none) := by
  have hf : findField UserGeneratedToken.fields "id" =
      some (UserGeneratedToken.fields.head (by simp [UserGeneratedToken.fields])) := rfl
  simp only [Decode, readValue_object body _ rest hscan, UserGeneratedToken.target,
    unmarshalStruct, unmarshalObject, hf]
  rfl

/-! ## Lemmas: escaping and the query -/

/-- A property of all bytes, from its 256 cases. -/
theorem forall_byte (P : UInt8 → Prop) (h : ∀ n : Fin 256, P ⟨⟨n⟩⟩) (b : UInt8) : P b := by
  obtain ⟨⟨n⟩⟩ := b
  exact h n

set_option maxRecDepth 100000 in
/-- An escaped byte is ASCII and holds none of `&`, `;`, `=`. -/
theorem escapeByte_plain (b : UInt8) :
    (escapeByte b).all (fun x => decide (x < 128) && x != 38 && x != 59 && x != 61) = true := by
  revert b
  apply forall_byte
  decide

set_option maxRecDepth 100000 in
/-- An escaped byte unescapes to the byte. -/
theorem unescape_escapeByte (b : UInt8) : unescapeFrom .plain (escapeByte b) = some [b] := by
  revert b
  apply forall_byte
  decide

set_option maxRecDepth 100000 in
/-- The UTF-8 encoding of an ASCII character is its one byte. -/
theorem encode_ascii (b : UInt8) :
    b < 128 → String.utf8EncodeChar (Char.ofNat b.toNat) = [b] := by
  revert b
  apply forall_byte
  decide

theorem unescapeFrom_append (tail : Bytes) :
    ∀ (xs : Bytes) (st : PctState) (ys : Bytes), unescapeFrom st xs = some ys →
      unescapeFrom st (xs ++ tail) = (unescapeFrom .plain tail).map (fun r => ys ++ r) := by
  intro xs
  induction xs with
  | nil =>
    intro st ys h
    cases st <;> simp [unescapeFrom] at h
    subst h
    simp
  | cons x rest ih =>
    intro st ys h
    cases st with
    | plain =>
      simp only [unescapeFrom, List.cons_append, List.append_eq] at h ⊢
      split at h
      · rename_i hx
        simp only [hx, if_true]
        exact ih _ _ h
      · split at h
        · rename_i hx1 hx2
          simp only [hx1, hx2, if_true, if_false]
          cases hr : unescapeFrom .plain rest with
          | none => simp [hr] at h
          | some r =>
            simp only [hr, Option.map_some', Option.some.injEq] at h
            subst h
            rw [ih _ _ hr]
            cases unescapeFrom .plain tail <;> simp
        · rename_i hx1 hx2
          simp only [hx1, hx2, if_false]
          cases hr : unescapeFrom .plain rest with
          | none => simp [hr] at h
          | some r =>
            simp only [hr, Option.map_some', Option.some.injEq] at h
            subst h
            rw [ih _ _ hr]
            cases unescapeFrom .plain tail <;> simp
    | first =>
      simp only [unescapeFrom, List.cons_append, List.append_eq] at h ⊢
      cases hh : unhex x with
      | none => simp [hh] at h
      | some d =>
        simp only [hh] at h ⊢
        exact ih _ _ h
    | second hi =>
      simp only [unescapeFrom, List.cons_append, List.append_eq] at h ⊢
      cases hh : unhex x with
      | none => simp [hh] at h
      | some d =>
        simp only [hh] at h ⊢
        cases hr : unescapeFrom .plain rest with
        | none => simp [hr] at h
        | some r =>
          simp only [hr, Option.map_some', Option.some.injEq] at h
          subst h
          rw [ih _ _ hr]
          cases unescapeFrom .plain tail <;> simp

/-- `QueryUnescape` undoes `QueryEscape`. -/
theorem unescape_escape (bs : Bytes) : QueryUnescape (QueryEscape bs) = some bs := by
  unfold QueryUnescape QueryEscape
  induction bs with
  | nil => rfl
  | cons b rest ih =>
    rw [List.flatMap_cons, unescapeFrom_append _ _ _ _ (unescape_escapeByte b), ih]
    rfl

theorem escape_plain (bs : Bytes) :
    ∀ x ∈ QueryEscape bs, x < 128 ∧ x ≠ 38 ∧ x ≠ 59 ∧ x ≠ 61 := by
  intro x hx
  simp only [QueryEscape, List.mem_flatMap] at hx
  obtain ⟨b, _, hb⟩ := hx
  have h := escapeByte_plain b
  rw [List.all_eq_true] at h
  have hx := h x hb
  simp only [Bool.and_eq_true, decide_eq_true_eq, bne_iff_ne, ne_eq] at hx
  exact ⟨hx.1.1.1, hx.1.1.2, hx.1.2, hx.2⟩

theorem segment_plain (p : Bytes × Bytes) :
    ∀ x ∈ Values.segment p, x < 128 ∧ x ≠ 38 ∧ x ≠ 59 := by
  intro x hx
  simp only [Values.segment, List.mem_append, List.mem_cons] at hx
  rcases hx with hx | hx | hx
  · have := escape_plain _ x hx
    exact ⟨this.1, this.2.1, this.2.2.1⟩
  · subst hx
    decide
  · have := escape_plain _ x hx
    exact ⟨this.1, this.2.1, this.2.2.1⟩

theorem cut_append {α : Type} [DecidableEq α] (sep : α) (a b : List α) (h : sep ∉ a) :
    cut sep (a ++ sep :: b) = (a, b) := by
  induction a with
  | nil => simp [cut]
  | cons x rest ih =>
    simp only [List.mem_cons, not_or] at h
    have hx : ¬x = sep := fun e => h.1 e.symm
    simp [cut, hx, ih h.2]

theorem splitOn_plain {α : Type} [DecidableEq α] (sep : α) (a : List α) (h : sep ∉ a) :
    splitOn sep a = [a] := by
  induction a with
  | nil => rfl
  | cons x rest ih =>
    simp only [List.mem_cons, not_or] at h
    have hx : ¬x = sep := fun e => h.1 e.symm
    simp [splitOn, hx, ih h.2]

theorem splitOn_append {α : Type} [DecidableEq α] (sep : α) (a rest : List α) (h : sep ∉ a) :
    splitOn sep (a ++ sep :: rest) = a :: splitOn sep rest := by
  induction a with
  | nil => simp [splitOn]
  | cons x xs ih =>
    simp only [List.mem_cons, not_or] at h
    have hx : ¬x = sep := fun e => h.1 e.symm
    simp [splitOn, hx, ih h.2]

theorem splitOn_joinAmp (segs : List Bytes) (hne : segs ≠ []) (h : ∀ s ∈ segs, (38 : UInt8) ∉ s) :
    splitOn 38 (joinAmp segs) = segs := by
  induction segs with
  | nil => exact absurd rfl hne
  | cons s rest ih =>
    cases rest with
    | nil => simpa [joinAmp] using splitOn_plain 38 s (h s (by simp))
    | cons t rest2 =>
      simp only [joinAmp]
      rw [splitOn_append 38 s _ (h s (by simp)),
        ih (by simp) (fun x hx => h x (List.mem_cons_of_mem _ hx))]

/-- An encoded pair parses back to the pair. -/
theorem parsePair_segment (p : Bytes × Bytes) : parsePair (Values.segment p) = some p := by
  have h59 : (59 : UInt8) ∉ Values.segment p := fun hm => (segment_plain p _ hm).2.2 rfl
  have hne : Values.segment p ≠ [] := by simp [Values.segment]
  have h61 : (61 : UInt8) ∉ QueryEscape p.1 := fun hm => (escape_plain _ _ hm).2.2.2 rfl
  have hcut : cut 61 (Values.segment p) = (QueryEscape p.1, QueryEscape p.2) :=
    cut_append 61 _ _ h61
  simp [parsePair, h59, hne, hcut, unescape_escape]

theorem toBytes_asciiText (bs : Bytes) (h : ∀ x ∈ bs, x < 128) : toBytes (asciiText bs) = bs := by
  unfold toBytes asciiText
  induction bs with
  | nil => rfl
  | cons b rest ih =>
    simp only [List.map_cons, List.flatMap_cons]
    rw [encode_ascii b (h b (by simp)), ih (fun x hx => h x (List.mem_cons_of_mem _ hx))]
    rfl

theorem joinAmp_plain (segs : List Bytes) (h : ∀ s ∈ segs, ∀ x ∈ s, x < (128 : UInt8)) :
    ∀ x ∈ joinAmp segs, x < 128 := by
  induction segs with
  | nil => intro x hx; simp [joinAmp] at hx
  | cons s rest ih =>
    cases rest with
    | nil => intro x hx; exact h s (by simp) x (by simpa [joinAmp] using hx)
    | cons t rest2 =>
      intro x hx
      simp only [joinAmp, List.mem_append, List.mem_cons] at hx
      rcases hx with hx | hx | hx
      · exact h s (by simp) x hx
      · subst hx; decide
      · exact ih (fun y hy => h y (List.mem_cons_of_mem _ hy)) x hx

/-- `ParseQuery` undoes `Encode`, up to the order of the keys. -/
theorem parseQuery_encode (v : Values) : ParseQuery (toBytes v.Encode) = sortByKey v := by
  unfold Values.Encode Values.encodeBytes
  have hplain : ∀ s ∈ (sortByKey v).map Values.segment, ∀ x ∈ s, x < (128 : UInt8) := by
    intro s hs x hx
    simp only [List.mem_map] at hs
    obtain ⟨p, _, rfl⟩ := hs
    exact (segment_plain p x hx).1
  rw [toBytes_asciiText _ (joinAmp_plain _ hplain)]
  unfold ParseQuery
  cases hsv : sortByKey v with
  | nil => rfl
  | cons p rest =>
    rw [splitOn_joinAmp]
    · rw [List.filterMap_map]
      have : (parsePair ∘ Values.segment) = some := by
        funext q
        exact parsePair_segment q
      rw [this, List.filterMap_some]
    · simp
    · intro s hs
      simp only [List.mem_map] at hs
      obtain ⟨q, _, rfl⟩ := hs
      intro hm
      exact (segment_plain q _ hm).2.1 rfl

theorem bytesLE_refl (a : Bytes) : bytesLE a a = true := by
  induction a with
  | nil => rfl
  | cons x rest ih => simp [bytesLE, ih]

theorem lookup_insertKey (p : Bytes × Bytes) (key : Bytes) (l : Values) :
    Values.lookup (insertKey p l) key = Values.lookup (p :: l) key := by
  induction l with
  | nil => rfl
  | cons q rest ih =>
    unfold insertKey
    split
    · rfl
    · rename_i hle
      have hne : ¬(p.1 = key ∧ q.1 = key) := by
        rintro ⟨h1, h2⟩
        apply hle
        rw [h1, h2]
        exact bytesLE_refl key
      simp only [Values.lookup, List.filter_cons] at ih ⊢
      by_cases h1 : p.1 = key <;> by_cases h2 : q.1 = key
      · exact absurd ⟨h1, h2⟩ hne
      · simpa [h1, h2] using ih
      · simpa [h1, h2] using ih
      · simpa [h1, h2] using ih

/-- Sorting by key keeps the values of every key, in their order. -/
theorem lookup_sortByKey (v : Values) (key : Bytes) :
    Values.lookup (sortByKey v) key = Values.lookup v key := by
  induction v with
  | nil => rfl
  | cons p rest ih =>
    simp only [sortByKey, List.foldr_cons] at ih ⊢
    rw [lookup_insertKey]
    simp only [Values.lookup, List.filter_cons] at ih ⊢
    split <;> simp [ih]

theorem mem_insertKey (p q : Bytes × Bytes) (l : Values) :
    q ∈ insertKey p l ↔ q = p ∨ q ∈ l := by
  induction l with
  | nil => simp [insertKey]
  | cons r rest ih =>
    unfold insertKey
    split
    · simp
    · simp only [List.mem_cons, ih]
      tauto

theorem mem_sortByKey (q : Bytes × Bytes) (v : Values) : q ∈ sortByKey v ↔ q ∈ v := by
  induction v with
  | nil => simp [sortByKey]
  | cons p rest ih =>
    simp only [sortByKey, List.foldr_cons] at ih ⊢
    rw [mem_insertKey, ih]
    simp

/-- The loop of `FindUser` appends the parameters to the query of the route. -/
theorem findUserQuery_eq (u : URL) (queryParameters : List (String × String)) :
    FindUserQuery u queryParameters =
      u.Query ++ queryParameters.map (fun kv => (toBytes kv.1, toBytes kv.2)) := by
  unfold FindUserQuery
  generalize u.Query = q
  induction queryParameters generalizing q with
  | nil => simp
  | cons kv rest ih =>
    simp only [List.foldl_cons, List.map_cons]
    rw [ih]
    simp [Values.Add]

/-- The request of `FindUser`, when it is built. -/
theorem findUserRequest_ok (parse : URLParser) (client : BroodClient) (token : String)
    (queryParameters : List (String × String)) (req : Request)
    (h : FindUserRequest parse client token queryParameters = .ok req) :
    ∃ u, parse client.Routes.FindUser = .ok u ∧
      req.URL.RawQuery = (FindUserQuery u queryParameters).Encode ∧
      req.Header = [("Authorization", "Bearer " ++ token), ("Accept", "application/json")] := by
  unfold FindUserRequest NewRequest at h
  cases hp : parse client.Routes.FindUser with
  | error e => simp [hp] at h
  | ok u =>
    simp only [hp, Except.ok.injEq] at h
    subst h
    exact ⟨u, rfl, rfl, rfl⟩

/-- The bytes of the encoded text. -/
theorem toBytes_encode (v : Values) : toBytes v.Encode = v.encodeBytes := by
  unfold Values.Encode
  apply toBytes_asciiText
  apply joinAmp_plain
  intro s hs x hx
  simp only [List.mem_map] at hs
  obtain ⟨p, _, rfl⟩ := hs
  exact (segment_plain p x hx).1

/-- The encoded text cut at `&`: the encoded pairs, sorted by key. -/
theorem splitOn_encode (v : Values) (hne : v ≠ []) :
    splitOn 38 (toBytes v.Encode) = (sortByKey v).map Values.segment := by
  rw [toBytes_encode]
  unfold Values.encodeBytes
  apply splitOn_joinAmp
  · intro hnil
    simp only [List.map_eq_nil_iff] at hnil
    cases v with
    | nil => exact hne rfl
    | cons p rest =>
      have : p ∈ sortByKey (p :: rest) := (mem_sortByKey p _).2 (by simp)
      rw [hnil] at this
      simp at this
  · intro s hs
    simp only [List.mem_map] at hs
    obtain ⟨q, _, rfl⟩ := hs
    intro hm
    exact (segment_plain q _ hm).2.1 rfl

theorem lookup_append (a b : Values) (key : Bytes) :
    Values.lookup (a ++ b) key = Values.lookup a key ++ Values.lookup b key := by
  simp [Values.lookup]

theorem lookup_params (queryParameters : List (String × String)) (key : Bytes) :
    Values.lookup (queryParameters.map (fun kv => (toBytes kv.1, toBytes kv.2))) key =
      (queryParameters.filter (fun kv => decide (toBytes kv.1 = key))).map
        (fun kv => toBytes kv.2) := by
  induction queryParameters with
  | nil => rfl
  | cons kv rest ih =>
    simp only [Values.lookup, List.map_cons, List.filter_cons] at ih ⊢
    by_cases h : toBytes kv.1 = key <;> simp [h, ih]

/-! ## Lemmas: the requests -/

/-- A new request has no header, the body it was given and its length. -/
theorem newRequest_ok (parse : URLParser) (method url : String) (body : Option String)
    (req : Request) (h : NewRequest parse method url body = .ok req) :
    req.Header = [] ∧ req.Body = body.getD "" ∧
      req.ContentLength = (match body with
        | some b => (len b : Int)
        | none => 0) ∧ req.Method = method := by
  unfold NewRequest at h
  cases hp : parse url with
  | error e => simp [hp] at h
  | ok u =>
    simp only [hp, Except.ok.injEq] at h
    subst h
    cases body <;> exact ⟨rfl, rfl, rfl, rfl⟩

theorem bearer_of_get (parse : URLParser) (url token : String) (req : Request)
    (h : (match NewRequest parse "GET" url none with
      | .error requestErr => Except.error requestErr
      | .ok request => .ok (addBearer request token)) = .ok req) :
    req.Header.Values "Authorization" = ["Bearer " ++ token] ∧
      req.Header.Values "Accept" = ["application/json"] := by
  cases hn : NewRequest parse "GET" url none with
  | error e => simp [hn] at h
  | ok r =>
    simp only [hn, Except.ok.injEq] at h
    subst h
    have hh := (newRequest_ok parse _ _ _ r hn).1
    simp [addBearer, hh, Header.Values, Header.Add, List.filter]

theorem form_of_request (parse : URLParser) (method url data : String) (req : Request)
    (h : (match NewRequest parse method url (some data) with
      | .error requestErr => Except.error requestErr
      | .ok request => .ok (addForm request data)) = .ok req) :
    req.Header = [("Content-Type", "application/x-www-form-urlencoded"),
        ("Content-Length", Itoa (len data))] ∧
      req.Body = data ∧ req.ContentLength = (len data : Int) ∧ req.Method = method := by
  cases hn : NewRequest parse method url (some data) with
  | error e => simp [hn] at h
  | ok r =>
    simp only [hn, Except.ok.injEq] at h
    subst h
    obtain ⟨hh, hb, hl, hm⟩ := newRequest_ok parse _ _ _ r hn
    simp [addForm, hh, Header.Add, hb, hl, hm]

theorem form_bearer_of_request (parse : URLParser) (method url data token : String)
    (req : Request)
    (h : (match NewRequest parse method url (some data) with
      | .error requestErr => Except.error requestErr
      | .ok request => .ok (addBearer (addForm request data) token)) = .ok req) :
    req.Header = [("Content-Type", "application/x-www-form-urlencoded"),
        ("Content-Length", Itoa (len data)), ("Authorization", "Bearer " ++ token),
        ("Accept", "application/json")] ∧
      req.Body = data ∧ req.ContentLength = (len data : Int) := by
  cases hn : NewRequest parse method url (some data) with
  | error e => simp [hn] at h
  | ok r =>
    simp only [hn, Except.ok.injEq] at h
    subst h
    obtain ⟨hh, hb, hl, hm⟩ := newRequest_ok parse _ _ _ r hn
    simp [addForm, addBearer, hh, Header.Add, hb, hl]

/-- The request of `PostForm`: one header, the encoded form, its length. -/
theorem postForm_ok (parse : URLParser) (url : String) (data : Values) (req : Request)
    (h : PostFormRequest parse url data = .ok req) :
    req.Header = [("Content-Type", "application/x-www-form-urlencoded")] ∧
      req.Body = data.Encode ∧ req.ContentLength = (len data.Encode : Int) := by
  unfold PostFormRequest at h
  cases hn : NewRequest parse "POST" url (some data.Encode) with
  | error e => simp [hn] at h
  | ok r =>
    simp only [hn, Except.ok.injEq] at h
    subst h
    obtain ⟨hh, hb, hl, hm⟩ := newRequest_ok parse _ _ _ r hn
    simp [hh, Header.Set, hb, hl]

/-! ## The claims -/

/-- C1. Whatever the body holds, a response whose status is outside 200..299
makes each of the nine operations return the zero value of its result and the
status error with exactly the response's status code and body text; no decoder
takes part (the result is the same for every target of `Auth` and `ListTokens`
and for every body, JSON or not). -/
theorem status_error_skips_decoding {α β : Type} (authUser : Target α)
    (tokensList : Target β) (parse : URLParser) (client : BroodClient) (response : Response)
    (h : response.success = false) :
    (∀ token, Answers client (AuthRequest parse client token) response →
      Auth authUser parse client token =
        (authUser.zero, some (.status response.StatusCode response.Body.data))) ∧
    (∀ username email password,
      Answers client (CreateUserRequest parse client username email password) response →
      CreateUser parse client username email password =
        (({} : User), some (.status response.StatusCode response.Body.data))) ∧
    (∀ username password,
      Answers client (GenerateTokenRequest parse client username password) response →
      GenerateToken parse client username password =
        ("", some (.status response.StatusCode response.Body.data))) ∧
    (∀ token tokenType note,
      Answers client (AnnotateTokenRequest parse client token tokenType note) response →
      AnnotateToken parse client token tokenType note =
        ("", some (.status response.StatusCode response.Body.data))) ∧
    (∀ token, Answers client (ListTokensRequest parse client token) response →
      ListTokens tokensList parse client token =
        (tokensList.zero, some (.status response.StatusCode response.Body.data))) ∧
    (∀ token queryParameters,
      Answers client (FindUserRequest parse client token queryParameters) response →
      FindUser parse client token queryParameters =
        (({} : User), some (.status response.StatusCode response.Body.data))) ∧
    (∀ token, Answers client (GetUserRequest parse client token) response →
      GetUser parse client token =
        (({} : User), some (.status response.StatusCode response.Body.data))) ∧
    (∀ token code, Answers client (VerifyUserRequest parse client token code) response →
      VerifyUser parse client token code =
        (({} : User), some (.status response.StatusCode response.Body.data))) ∧
    (∀ token currentPassword newPassword,
      Answers client
        (ChangePasswordRequest parse client token currentPassword newPassword) response →
      ChangePassword parse client token currentPassword newPassword =
        (({} : User), some (.status response.StatusCode response.Body.data))) := by
  have hc := statusCheck_failure response h
  have hu := userResult_failure response h
  refine ⟨?_, ?_, ?_, ?_, ?_, ?_, ?_, ?_, ?_⟩
  · intro token ha
    rw [Auth_answered authUser parse client token response ha, hc]
  · intro username email password ha
    rw [CreateUser_answered parse client username email password response ha, hu]
  · intro username password ha
    rw [GenerateToken_answered parse client username password response ha, hc]
  · intro token tokenType note ha
    rw [AnnotateToken_answered parse client token tokenType note response ha, hc]
  · intro token ha
    rw [ListTokens_answered tokensList parse client token response ha, hc]
  · intro token queryParameters ha
    rw [FindUser_answered parse client token queryParameters response ha, hu]
  · intro token ha
    rw [GetUser_answered parse client token response ha, hu]
  · intro token code ha
    rw [VerifyUser_answered parse client token code response ha, hu]
  · intro token currentPassword newPassword ha
    rw [ChangePassword_answered parse client token currentPassword newPassword response ha, hu]

/-- C1, at a 404 whose body is the text `not found` and at a 500 whose body is a
JSON object with an id. -/
theorem status_error_skips_decoding_witness :
    notFound.success = false ∧
    Auth User.target urlParse (clientAnswering notFound) "tok" =
      ({}, some (.status 404 "not found")) ∧
    GenerateToken urlParse (clientAnswering notFound) "alice" "pw" =
      ("", some (.status 404 "not found")) ∧
    GetUser urlParse (clientAnswering serverError) "tok" =
      ({}, some (.status 500 "\x7b\"id\":\"u1\"\x7d")) :=
  ⟨by decide,
    (status_error_skips_decoding User.target User.target urlParse (clientAnswering notFound)
      notFound (by decide)).1 "tok" ⟨_, rfl, rfl⟩,
    (status_error_skips_decoding User.target User.target urlParse (clientAnswering notFound)
      notFound (by decide)).2.2.1 "alice" "pw" ⟨_, rfl, rfl⟩,
    (status_error_skips_decoding User.target User.target urlParse (clientAnswering serverError)
      serverError (by decide)).2.2.2.2.2.2.1 "tok" ⟨_, rfl, rfl⟩⟩

/-- C2, as stated, fails at two bodies that are JSON objects without `id` and
with the string `user_id` = `u1`.  With a number under `username` the first
decoding reports a type error and the id stays empty; with a key `ID` the
decoder stores that member as the id (keys match fields up to letter case) and
the fallback never runs. -/
theorem user_id_fallback_counterexample :
    scan "\x7b\"user_id\":\"u1\",\"username\":7\x7d" =
      .ok (.object [("user_id", .str "u1"), ("username", .number "7")]) [] ∧
    GetUser urlParse
        (clientAnswering ⟨200, ⟨"\x7b\"user_id\":\"u1\",\"username\":7\x7d", none, 0⟩⟩) "tok" =
      ({ Id := "" }, some (.unmarshalType "number" "username")) ∧
    scan "\x7b\"ID\":\"x\",\"user_id\":\"u1\"\x7d" =
      .ok (.object [("ID", .str "x"), ("user_id", .str "u1")]) [] ∧
    GetUser urlParse
        (clientAnswering ⟨200, ⟨"\x7b\"ID\":\"x\",\"user_id\":\"u1\"\x7d", none, 0⟩⟩) "tok" =
      ({ Id := "x" }, none) :=
  ⟨rfl, by decide, rfl, by decide⟩

/-- C2 (amended). Let a 2xx body begin with a JSON object in which every member
that names `id` (up to letter case) carries `null` or the empty string, every
member that names `username`, `email` or `verified` carries a value of that
field's type or `null`, a member that names `user_id` carries the string `u`, and
every member that names `user_id` carries `u` or `null`.  Then the second decoding,
of the buffered copy of the same body, yields `u` without error, and each of
`CreateUser`, `FindUser`, `GetUser`, `VerifyUser` and `ChangePassword` returns no
error and the decoded `User` with `Id` set to `u`. -/
theorem user_id_fallback (parse : URLParser) (client : BroodClient) (response : Response)
    (kvs : List (String × JSON)) (rest : List Char) (u : String)
    (hs : response.success = true)
    (hscan : scan response.Body.data = .ok (.object kvs) rest)
    (hfit : fitsUser kvs = true) (hid : lacksId kvs = true)
    (huid : hasUserId kvs u = true) :
    getUserID response.Body.buffered = (u, none) ∧
    (∀ username email password,
      Answers client (CreateUserRequest parse client username email password) response →
      CreateUser parse client username email password =
        ({ (Decode User.target response.Body {}).1 with Id := u }, none)) ∧
    (∀ token queryParameters,
      Answers client (FindUserRequest parse client token queryParameters) response →
      FindUser parse client token queryParameters =
        ({ (Decode User.target response.Body {}).1 with Id := u }, none)) ∧
    (∀ token, Answers client (GetUserRequest parse client token) response →
      GetUser parse client token =
        ({ (Decode User.target response.Body {}).1 with Id := u }, none)) ∧
    (∀ token code, Answers client (VerifyUserRequest parse client token code) response →
      VerifyUser parse client token code =
        ({ (Decode User.target response.Body {}).1 with Id := u }, none)) ∧
    (∀ token currentPassword newPassword,
      Answers client
        (ChangePasswordRequest parse client token currentPassword newPassword) response →
      ChangePassword parse client token currentPassword newPassword =
        ({ (Decode User.target response.Body {}).1 with Id := u }, none)) := by
  have hu := userResult_fallback response kvs rest u hs hscan hfit hid huid
  have hg : getUserID response.Body.buffered = (u, none) := by
    simp only [hasUserId, Bool.and_eq_true] at huid
    have hg := getUserID_object response.Body kvs rest u hscan huid.2
    rw [huid.1] at hg
    simpa using hg
  refine ⟨hg, ?_, ?_, ?_, ?_, ?_⟩
  · intro username email password ha
    rw [CreateUser_answered parse client username email password response ha, hu]
  · intro token queryParameters ha
    rw [FindUser_answered parse client token queryParameters response ha, hu]
  · intro token ha
    rw [GetUser_answered parse client token response ha, hu]
  · intro token code ha
    rw [VerifyUser_answered parse client token code response ha, hu]
  · intro token currentPassword newPassword ha
    rw [ChangePassword_answered parse client token currentPassword newPassword response ha, hu]

/-- C2 (amended), at the body `\x7b"user_id":"u1","username":"alice"\x7d` with a
line end after it. -/
theorem user_id_fallback_witness :
    CreateUser urlParse (clientAnswering fallbackResponse) "alice" "a@b.test" "pw" =
      ({ Id := "u1", Username := "alice" }, none) ∧
    ChangePassword urlParse (clientAnswering fallbackResponse) "tok" "old" "new" =
      ({ Id := "u1", Username := "alice" }, none) :=
  ⟨((user_id_fallback urlParse (clientAnswering fallbackResponse) fallbackResponse
      [("user_id", .str "u1"), ("username", .str "alice")] ['\n'] "u1"
      (by decide) rfl (by decide) (by decide) (by decide)).2.1
      "alice" "a@b.test" "pw" ⟨_, rfl, rfl⟩).trans (by decide),
   ((user_id_fallback urlParse (clientAnswering fallbackResponse) fallbackResponse
      [("user_id", .str "u1"), ("username", .str "alice")] ['\n'] "u1"
      (by decide) rfl (by decide) (by decide) (by decide)).2.2.2.2.2
      "tok" "old" "new" ⟨_, rfl, rfl⟩).trans (by decide)⟩

/-- C3. Every string `s` has a JSON text of the envelope with the member `id` =
`s` (the scanner reads `idEnvelope s` as exactly that object), and for every 2xx
response whose body reads as that envelope `GenerateToken` returns exactly `s`
and no error. -/
theorem GenerateToken_returns_id (s : String) :
    scan (idEnvelope s) = .ok (.object [("id", .str s)]) [] ∧
    ∀ (parse : URLParser) (client : BroodClient) (username password : String)
      (response : Response) (rest : List Char),
      response.success = true →
      scan response.Body.data = .ok (.object [("id", .str s)]) rest →
      Answers client (GenerateTokenRequest parse client username password) response →
      GenerateToken parse client username password = (s, none) := by
  refine ⟨scan_idEnvelope s, ?_⟩
  intro parse client username password response rest hs hscan ha
  rw [GenerateToken_answered parse client username password response ha,
    statusCheck_success response hs]
  simp only [decodeToken_envelope response.Body s rest hscan]

/-- C3, at the body `\x7b"id":"abc123"\x7d`. -/
theorem GenerateToken_returns_id_witness :
    idEnvelope "abc123" = "\x7b\"id\":\"abc123\"\x7d" ∧
    GenerateToken urlParse (clientAnswering ⟨200, ⟨"\x7b\"id\":\"abc123\"\x7d", none, 0⟩⟩)
      "alice" "pw" = ("abc123", none) :=
  ⟨by decide,
    (GenerateToken_returns_id "abc123").2 urlParse
      (clientAnswering ⟨200, ⟨"\x7b\"id\":\"abc123\"\x7d", none, 0⟩⟩) "alice" "pw"
      ⟨200, ⟨"\x7b\"id\":\"abc123\"\x7d", none, 0⟩⟩ [] (by decide) rfl ⟨_, rfl, rfl⟩⟩

/-- C4, as stated, fails at the body `\x7b"id":"abc123"\x7dx`: it is no JSON
text (a value followed by `x`), and `GenerateToken` returns the id of the value
it begins with and no error, because the decoder stops at the end of the first
value. -/
theorem GenerateToken_malformed_counterexample :
    isJSONText "\x7b\"id\":\"abc123\"\x7dx" = false ∧
    GenerateToken urlParse (clientAnswering ⟨200, ⟨"\x7b\"id\":\"abc123\"\x7dx", none, 0⟩⟩)
      "alice" "pw" = ("abc123", none) :=
  ⟨by decide, by decide⟩

/-- C4 (amended). For every 2xx response whose body does not begin with a
complete JSON value (the scan for the first value fails or reaches the end of
the body), `GenerateToken` returns the empty string and a non-nil error, the
decoder's. -/
theorem GenerateToken_malformed (parse : URLParser) (client : BroodClient)
    (username password : String) (response : Response)
    (hs : response.success = true) (hscan : scans response.Body.data = false)
    (ha : Answers client (GenerateTokenRequest parse client username password) response) :
    ∃ e, readValue response.Body = .error e ∧
      GenerateToken parse client username password = ("", some e) := by
  rw [GenerateToken_answered parse client username password response ha,
    statusCheck_success response hs]
  unfold scans at hscan
  unfold Decode readValue
  cases hsc : scan response.Body.data with
  | ok v rest => simp [hsc] at hscan
  | invalid => exact ⟨.invalidJSON, rfl, rfl⟩
  | eof =>
    simp only
    cases response.Body.err with
    | some e => exact ⟨e, rfl, rfl⟩
    | none =>
      simp only
      split
      · exact ⟨.EOF, rfl, rfl⟩
      · exact ⟨.unexpectedEOF, rfl, rfl⟩

/-- C4 (amended), at a body that breaks off inside the envelope and at a body
that is no JSON at all. -/
theorem GenerateToken_malformed_witness :
    GenerateToken urlParse (clientAnswering ⟨200, ⟨"\x7b\"id\":\"abc", none, 0⟩⟩) "alice" "pw" =
      ("", some .unexpectedEOF) ∧
    GenerateToken urlParse (clientAnswering ⟨200, ⟨"<html>", none, 0⟩⟩) "alice" "pw" =
      ("", some .invalidJSON) := by
  obtain ⟨e1, h1, g1⟩ := GenerateToken_malformed urlParse
    (clientAnswering ⟨200, ⟨"\x7b\"id\":\"abc", none, 0⟩⟩) "alice" "pw"
    ⟨200, ⟨"\x7b\"id\":\"abc", none, 0⟩⟩ (by decide) (by decide) ⟨_, rfl, rfl⟩
  obtain ⟨e2, h2, g2⟩ := GenerateToken_malformed urlParse
    (clientAnswering ⟨200, ⟨"<html>", none, 0⟩⟩) "alice" "pw"
    ⟨200, ⟨"<html>", none, 0⟩⟩ (by decide) (by decide) ⟨_, rfl, rfl⟩
  have k1 : readValue ⟨"\x7b\"id\":\"abc", none, 0⟩ = .error .unexpectedEOF := rfl
  have k2 : readValue ⟨"<html>", none, 0⟩ = .error .invalidJSON := rfl
  rw [k1] at h1
  rw [k2] at h2
  cases h1
  cases h2
  exact ⟨g1, g2⟩

/-- C5. For every 2xx status and every body text `b` that arrives in full,
`AnnotateToken` returns exactly `b` and no error; the text is not decoded (a
body that is a JSON string comes back with its quotes). -/
theorem AnnotateToken_returns_body (parse : URLParser) (client : BroodClient)
    (token tokenType note : String) (status : Int) (b : String) (ahead : Nat)
    (hs : 200 ≤ status ∧ status < 300)
    (ha : Answers client (AnnotateTokenRequest parse client token tokenType note)
      ⟨status, ⟨b, none, ahead⟩⟩) :
    AnnotateToken parse client token tokenType note = (b, none) := by
  rw [AnnotateToken_answered parse client token tokenType note _ ha,
    statusCheck_success _ (by simp [Response.success, hs])]
  rfl

/-- C5, at the body `ok` and at the body `"ok"`. -/
theorem AnnotateToken_returns_body_witness :
    AnnotateToken urlParse (clientAnswering ⟨200, ⟨"ok", none, 0⟩⟩) "tok" "bot" "ci" =
      ("ok", none) ∧
    AnnotateToken urlParse (clientAnswering ⟨204, ⟨"\"ok\"", none, 0⟩⟩) "tok" "bot" "ci" =
      ("\"ok\"", none) :=
  ⟨AnnotateToken_returns_body urlParse (clientAnswering ⟨200, ⟨"ok", none, 0⟩⟩) "tok" "bot" "ci"
      200 "ok" 0 (by decide) ⟨_, rfl, rfl⟩,
   AnnotateToken_returns_body urlParse (clientAnswering ⟨204, ⟨"\"ok\"", none, 0⟩⟩) "tok" "bot"
      "ci" 204 "\"ok\"" 0 (by decide) ⟨_, rfl, rfl⟩⟩

/-- C6. For every token `t`, each of `Auth`, `ListTokens`, `FindUser`, `GetUser`,
`VerifyUser` and `ChangePassword` builds a request whenever its route parses, and
the request it builds has exactly one `Authorization` header, `Bearer ` followed
by `t`, and exactly one `Accept` header, `application/json`.  `AnnotateToken`
builds a request whenever its route parses too, a `PUT`, and that request has
neither of the two headers and has the two form headers instead. -/
theorem bearer_headers (parse : URLParser) (client : BroodClient) (t : String) :
    (∀ req, AuthRequest parse client t = .ok req →
      req.Header.Values "Authorization" = ["Bearer " ++ t] ∧
      req.Header.Values "Accept" = ["application/json"]) ∧
    (∀ req, ListTokensRequest parse client t = .ok req →
      req.Header.Values "Authorization" = ["Bearer " ++ t] ∧
      req.Header.Values "Accept" = ["application/json"]) ∧
    (∀ queryParameters req, FindUserRequest parse client t queryParameters = .ok req →
      req.Header.Values "Authorization" = ["Bearer " ++ t] ∧
      req.Header.Values "Accept" = ["application/json"]) ∧
    (∀ req, GetUserRequest parse client t = .ok req →
      req.Header.Values "Authorization" = ["Bearer " ++ t] ∧
      req.Header.Values "Accept" = ["application/json"]) ∧
    (∀ code req, VerifyUserRequest parse client t code = .ok req →
      req.Header.Values "Authorization" = ["Bearer " ++ t] ∧
      req.Header.Values "Accept" = ["application/json"]) ∧
    (∀ currentPassword newPassword req,
      ChangePasswordRequest parse client t currentPassword newPassword = .ok req →
      req.Header.Values "Authorization" = ["Bearer " ++ t] ∧
      req.Header.Values "Accept" = ["application/json"]) ∧
    (∀ tokenType note req, AnnotateTokenRequest parse client t tokenType note = .ok req →
      req.Method = "PUT" ∧
      req.Header.Values "Authorization" = [] ∧
      req.Header.Values "Accept" = [] ∧
      req.Header.Values "Content-Type" = ["application/x-www-form-urlencoded"] ∧
      req.Header.Values "Content-Length" = [Itoa (len req.Body)]) ∧
    (∀ u, parse client.Routes.Auth = .ok u →
      ∃ req, AuthRequest parse client t = .ok req ∧ req.Method = "GET" ∧ req.URL = u) ∧
    (∀ u, parse client.Routes.ListTokens = .ok u →
      ∃ req, ListTokensRequest parse client t = .ok req ∧ req.Method = "GET" ∧
        req.URL = u) ∧
    (∀ queryParameters u, parse client.Routes.FindUser = .ok u →
      ∃ req, FindUserRequest parse client t queryParameters = .ok req ∧
        req.Method = "GET" ∧
        req.URL = { u with RawQuery := (FindUserQuery u queryParameters).Encode }) ∧
    (∀ u, parse client.Routes.User = .ok u →
      ∃ req, GetUserRequest parse client t = .ok req ∧ req.Method = "GET" ∧ req.URL = u) ∧
    (∀ code u, parse client.Routes.ConfirmRegistration = .ok u →
      ∃ req, VerifyUserRequest parse client t code = .ok req ∧ req.Method = "POST" ∧
        req.URL = u) ∧
    (∀ currentPassword newPassword u, parse client.Routes.ChangePassword = .ok u →
      ∃ req, ChangePasswordRequest parse client t currentPassword newPassword = .ok req ∧
        req.Method = "POST" ∧ req.URL = u) ∧
    (∀ tokenType note u, parse client.Routes.Token = .ok u →
      ∃ req, AnnotateTokenRequest parse client t tokenType note = .ok req ∧
        req.Method = "PUT" ∧ req.URL = u) := by
  refine ⟨?_, ?_, ?_, ?_, ?_, ?_, ?_, ?_, ?_, ?_, ?_, ?_, ?_, ?_⟩
  · intro req h
    exact bearer_of_get parse _ t req h
  · intro req h
    exact bearer_of_get parse _ t req h
  · intro queryParameters req h
    obtain ⟨_, _, _, hh⟩ := findUserRequest_ok parse client t queryParameters req h
    simp [hh, Header.Values, List.filter]
  · intro req h
    exact bearer_of_get parse _ t req h
  · intro code req h
    obtain ⟨hh, _, _⟩ := form_bearer_of_request parse _ _ _ t req h
    simp [hh, Header.Values, List.filter]
  · intro currentPassword newPassword req h
    obtain ⟨hh, _, _⟩ := form_bearer_of_request parse _ _ _ t req h
    simp [hh, Header.Values, List.filter]
  · intro tokenType note req h
    obtain ⟨hh, hb, _, hm⟩ := form_of_request parse _ _ _ req h
    simp [hh, hb, hm, Header.Values, List.filter]
  · intro u hu
    simp [AuthRequest, NewRequest, hu, addBearer]
  · intro u hu
    simp [ListTokensRequest, NewRequest, hu, addBearer]
  · intro queryParameters u hu
    simp [FindUserRequest, NewRequest, hu, addBearer]
  · intro u hu
    simp [GetUserRequest, NewRequest, hu, addBearer]
  · intro code u hu
    simp [VerifyUserRequest, NewRequest, hu, addBearer, addForm]
  · intro currentPassword newPassword u hu
    simp [ChangePasswordRequest, NewRequest, hu, addBearer, addForm]
  · intro tokenType note u hu
    simp [AnnotateTokenRequest, NewRequest, hu, addForm]

/-- C6, at the token `tok`: each of the seven operations builds its request over
the test routes, the six bearer requests carry the two headers and the
`AnnotateToken` request carries neither. -/
theorem bearer_headers_witness :
    (AuthRequest urlParse (clientAnswering notFound) "tok" = .ok authExample ∧
      authExample.Header.Values "Authorization" = ["Bearer tok"] ∧
      authExample.Header.Values "Accept" = ["application/json"]) ∧
    (ListTokensRequest urlParse (clientAnswering notFound) "tok" = .ok listTokensExample ∧
      listTokensExample.Header.Values "Authorization" = ["Bearer tok"] ∧
      listTokensExample.Header.Values "Accept" = ["application/json"]) ∧
    (FindUserRequest urlParse (clientAnswering notFound) "tok"
        [("username", "alice"), ("application_id", "app-1")] = .ok findUserExample ∧
      findUserExample.Header.Values "Authorization" = ["Bearer tok"] ∧
      findUserExample.Header.Values "Accept" = ["application/json"]) ∧
    (GetUserRequest urlParse (clientAnswering notFound) "tok" = .ok getUserExample ∧
      getUserExample.Header.Values "Authorization" = ["Bearer tok"] ∧
      getUserExample.Header.Values "Accept" = ["application/json"]) ∧
    (VerifyUserRequest urlParse (clientAnswering notFound) "tok" "1234" = .ok verifyExample ∧
      verifyExample.Header.Values "Authorization" = ["Bearer tok"] ∧
      verifyExample.Header.Values "Accept" = ["application/json"]) ∧
    (ChangePasswordRequest urlParse (clientAnswering notFound) "tok" "old" "new" =
        .ok changePasswordExample ∧
      changePasswordExample.Header.Values "Authorization" = ["Bearer tok"] ∧
      changePasswordExample.Header.Values "Accept" = ["application/json"]) ∧
    (AnnotateTokenRequest urlParse (clientAnswering notFound) "tok" "bot" "ci" =
        .ok annotateExample ∧
      annotateExample.Method = "PUT" ∧
      annotateExample.Header.Values "Authorization" = [] ∧
      annotateExample.Header.Values "Accept" = []) ∧
    (∃ req, ListTokensRequest urlParse (clientAnswering notFound) "tok" = .ok req ∧
      req.Method = "GET" ∧
      req.URL = { Scheme := "https", Host := "auth.test", Path := "/tokens" }) :=
  ⟨⟨rfl, (bearer_headers urlParse (clientAnswering notFound) "tok").1 authExample rfl⟩,
   ⟨rfl, (bearer_headers urlParse (clientAnswering notFound) "tok").2.1
      listTokensExample rfl⟩,
   ⟨rfl, (bearer_headers urlParse (clientAnswering notFound) "tok").2.2.1
      [("username", "alice"), ("application_id", "app-1")] findUserExample rfl⟩,
   ⟨rfl, (bearer_headers urlParse (clientAnswering notFound) "tok").2.2.2.1
      getUserExample rfl⟩,
   ⟨rfl, (bearer_headers urlParse (clientAnswering notFound) "tok").2.2.2.2.1
      "1234" verifyExample rfl⟩,
   ⟨rfl, (bearer_headers urlParse (clientAnswering notFound) "tok").2.2.2.2.2.1
      "old" "new" changePasswordExample rfl⟩,
   ⟨rfl,
    ((bearer_headers urlParse (clientAnswering notFound) "tok").2.2.2.2.2.2.1
      "bot" "ci" annotateExample rfl).1,
    ((bearer_headers urlParse (clientAnswering notFound) "tok").2.2.2.2.2.2.1
      "bot" "ci" annotateExample rfl).2.1,
    ((bearer_headers urlParse (clientAnswering notFound) "tok").2.2.2.2.2.2.1
      "bot" "ci" annotateExample rfl).2.2.1⟩,
   (bearer_headers urlParse (clientAnswering notFound) "tok").2.2.2.2.2.2.2.2.1
      { Scheme := "https", Host := "auth.test", Path := "/tokens" } rfl⟩

/-- C7, as stated, fails at `CreateUser` (and `GenerateToken`): the request
`PostForm` builds has the `Content-Type` header and the content length of the
encoded form, and no `Content-Length` header. -/
theorem form_headers_counterexample :
    CreateUserRequest urlParse (clientAnswering notFound) "alice" "a@b.test" "pw" =
      .ok createExample ∧
    createExample.Header = [("Content-Type", "application/x-www-form-urlencoded")] ∧
    createExample.Header.Values "Content-Length" = [] ∧
    createExample.ContentLength = 43 :=
  ⟨rfl, rfl, rfl, rfl⟩

/-- C7 (amended). The request of each of the five operations that send a form
carries the encoded form as its body, has `Content-Type:
application/x-www-form-urlencoded` and has the length of the encoded form as its
content length.  `AnnotateToken`, `VerifyUser` and `ChangePassword` also set the
header `Content-Length` to that length, in decimal; `CreateUser` and
`GenerateToken`, which go through `PostForm`, set no `Content-Length` header. -/
theorem form_headers (parse : URLParser) (client : BroodClient) :
    (∀ username email password req,
      CreateUserRequest parse client username email password = .ok req →
      req.Body = (CreateUserData username email password).Encode ∧
      req.Header.Values "Content-Type" = ["application/x-www-form-urlencoded"] ∧
      req.ContentLength = (len req.Body : Int) ∧
      req.Header.Values "Content-Length" = []) ∧
    (∀ username password req,
      GenerateTokenRequest parse client username password = .ok req →
      req.Body = (GenerateTokenData username password).Encode ∧
      req.Header.Values "Content-Type" = ["application/x-www-form-urlencoded"] ∧
      req.ContentLength = (len req.Body : Int) ∧
      req.Header.Values "Content-Length" = []) ∧
    (∀ token tokenType note req,
      AnnotateTokenRequest parse client token tokenType note = .ok req →
      req.Body = AnnotateTokenData token tokenType note ∧
      req.Header.Values "Content-Type" = ["application/x-www-form-urlencoded"] ∧
      req.ContentLength = (len req.Body : Int) ∧
      req.Header.Values "Content-Length" = [Itoa (len req.Body)]) ∧
    (∀ token code req, VerifyUserRequest parse client token code = .ok req →
      req.Body = VerifyUserData code ∧
      req.Header.Values "Content-Type" = ["application/x-www-form-urlencoded"] ∧
      req.ContentLength = (len req.Body : Int) ∧
      req.Header.Values "Content-Length" = [Itoa (len req.Body)]) ∧
    (∀ token currentPassword newPassword req,
      ChangePasswordRequest parse client token currentPassword newPassword = .ok req →
      req.Body = ChangePasswordData currentPassword newPassword ∧
      req.Header.Values "Content-Type" = ["application/x-www-form-urlencoded"] ∧
      req.ContentLength = (len req.Body : Int) ∧
      req.Header.Values "Content-Length" = [Itoa (len req.Body)]) := by
  refine ⟨?_, ?_, ?_, ?_, ?_⟩
  · intro username email password req h
    obtain ⟨hh, hb, hl⟩ := postForm_ok parse _ _ req h
    simp [hh, hb, hl, Header.Values, List.filter]
  · intro username password req h
    obtain ⟨hh, hb, hl⟩ := postForm_ok parse _ _ req h
    simp [hh, hb, hl, Header.Values, List.filter]
  · intro token tokenType note req h
    obtain ⟨hh, hb, hl, _⟩ := form_of_request parse _ _ _ req h
    simp [hh, hb, hl, Header.Values, List.filter]
  · intro token code req h
    obtain ⟨hh, hb, hl⟩ := form_bearer_of_request parse _ _ _ token req h
    simp [hh, hb, hl, Header.Values, List.filter]
  · intro token currentPassword newPassword req h
    obtain ⟨hh, hb, hl⟩ := form_bearer_of_request parse _ _ _ token req h
    simp [hh, hb, hl, Header.Values, List.filter]

/-- C7 (amended), at the requests of `VerifyUser` and of `CreateUser`. -/
theorem form_headers_witness :
    verifyExample.Body = "verification_code=1234" ∧
    verifyExample.Header.Values "Content-Length" = ["22"] ∧
    createExample.Body = "email=a%40b.test&password=pw&username=alice" ∧
    createExample.Header.Values "Content-Length" = [] :=
  ⟨((form_headers urlParse (clientAnswering notFound)).2.2.2.1
      "tok" "1234" verifyExample rfl).1.trans (by decide),
   ((form_headers urlParse (clientAnswering notFound)).2.2.2.1
      "tok" "1234" verifyExample rfl).2.2.2.trans (by decide),
   ((form_headers urlParse (clientAnswering notFound)).1
      "alice" "a@b.test" "pw" createExample rfl).1.trans (by decide),
   ((form_headers urlParse (clientAnswering notFound)).1
      "alice" "a@b.test" "pw" createExample rfl).2.2.2⟩

/-- C8. The query string of the request `FindUser` sends holds every pair of
`queryParameters`: cut at its `&` separators it has the piece `key=value` (both
escaped as `url.QueryEscape` does), and parsed as a server parses it
(`URL.Query`) it has the value among the values of the key. -/
theorem FindUser_query_contains (parse : URLParser) (client : BroodClient) (token : String)
    (queryParameters : List (String × String)) (req : Request)
    (h : FindUserRequest parse client token queryParameters = .ok req)
    (k v : String) (hkv : (k, v) ∈ queryParameters) :
    Values.segment (toBytes k, toBytes v) ∈ splitOn 38 (toBytes req.URL.RawQuery) ∧
    toBytes v ∈ req.URL.Query.lookup (toBytes k) := by
  obtain ⟨u, _, hq, _⟩ := findUserRequest_ok parse client token queryParameters req h
  have hmem : (toBytes k, toBytes v) ∈ FindUserQuery u queryParameters := by
    rw [findUserQuery_eq]
    apply List.mem_append_right
    exact List.mem_map.2 ⟨(k, v), hkv, rfl⟩
  constructor
  · rw [hq, splitOn_encode _ (List.ne_nil_of_mem hmem)]
    exact List.mem_map.2 ⟨_, (mem_sortByKey _ _).2 hmem, rfl⟩
  · unfold URL.Query
    rw [hq, parseQuery_encode, lookup_sortByKey]
    simp only [Values.lookup, List.mem_map, List.mem_filter, decide_eq_true_eq]
    exact ⟨(toBytes k, toBytes v), ⟨hmem, rfl⟩, rfl⟩

/-- C8, at the parameters `username` = `alice` and `application_id` = `app-1`. -/
theorem FindUser_query_contains_witness :
    FindUserRequest urlParse (clientAnswering notFound) "tok"
        [("username", "alice"), ("application_id", "app-1")] = .ok findUserExample ∧
    findUserExample.URL.RawQuery = "application_id=app-1&username=alice" ∧
    toBytes "alice" ∈ findUserExample.URL.Query.lookup (toBytes "username") ∧
    toBytes "app-1" ∈ findUserExample.URL.Query.lookup (toBytes "application_id") :=
  ⟨rfl, rfl,
    (FindUser_query_contains urlParse (clientAnswering notFound) "tok"
      [("username", "alice"), ("application_id", "app-1")] findUserExample rfl
      "username" "alice" (by simp)).2,
    (FindUser_query_contains urlParse (clientAnswering notFound) "tok"
      [("username", "alice"), ("application_id", "app-1")] findUserExample rfl
      "application_id" "app-1" (by simp)).2⟩

/-- C9, as stated, fails at a find-user route that carries `username=bob` and the
caller's parameter `username` = `alice`: the outgoing query string is
`username=bob&username=alice`, two values for the one key, the route's value
not replaced. -/
theorem FindUser_query_counterexample :
    FindUserRequest urlParse (clientWithQuery notFound) "tok" [("username", "alice")] =
      .ok findUserDouble ∧
    findUserDouble.URL.RawQuery = "username=bob&username=alice" ∧
    findUserDouble.URL.Query.lookup (toBytes "username") = [toBytes "bob", toBytes "alice"] :=
  ⟨rfl, rfl, by decide⟩

/-- C9 (amended). `FindUser` adds the caller's parameters with `Values.Add`, which
appends: for every key, the values the outgoing query string carries for that key
are the values the route's own query has for it, in order, followed by the
caller's value for it (if any).  Nothing is replaced. -/
theorem FindUser_query_appends (parse : URLParser) (client : BroodClient) (token : String)
    (queryParameters : List (String × String)) (u : URL) (req : Request)
    (hu : parse client.Routes.FindUser = .ok u)
    (h : FindUserRequest parse client token queryParameters = .ok req) (key : Bytes) :
    req.URL.Query.lookup key =
      u.Query.lookup key ++
        (queryParameters.filter (fun kv => decide (toBytes kv.1 = key))).map
          (fun kv => toBytes kv.2) := by
  obtain ⟨u2, hu2, hq, _⟩ := findUserRequest_ok parse client token queryParameters req h
  rw [hu] at hu2
  cases hu2
  show Values.lookup (ParseQuery (toBytes req.URL.RawQuery)) key = _
  rw [hq, parseQuery_encode, lookup_sortByKey, findUserQuery_eq, lookup_append, lookup_params]

/-- C9 (amended), at the route with `username=bob` and the parameters `username`
= `alice`, `email` = `a@b.test`. -/
theorem FindUser_query_appends_witness :
    FindUserRequest urlParse (clientWithQuery notFound) "tok"
        [("username", "alice"), ("email", "a@b.test")] = .ok findUserTriple ∧
    findUserTriple.URL.RawQuery = "email=a%40b.test&username=bob&username=alice" ∧
    findUserTriple.URL.Query.lookup (toBytes "username") =
      [toBytes "bob"] ++ [toBytes "alice"] :=
  ⟨rfl, rfl,
    (FindUser_query_appends urlParse (clientWithQuery notFound) "tok"
      [("username", "alice"), ("email", "a@b.test")]
      { Scheme := "https", Host := "auth.test", Path := "/user/find",
        RawQuery := "username=bob" }
      findUserTriple rfl rfl (toBytes "username")).trans (by decide)⟩

/-- C10, as stated, fails at two well-formed JSON objects that have neither an
`id` nor a `user_id` member.  With a number under `email` the operation returns
a type error, not `nil`; with a key `USER_ID` the fallback finds an id (keys
match fields up to letter case) and the returned `Id` is not empty. -/
theorem silent_fallback_counterexample :
    scan "\x7b\"email\":7\x7d" = .ok (.object [("email", .number "7")]) [] ∧
    FindUser urlParse (clientAnswering ⟨200, ⟨"\x7b\"email\":7\x7d", none, 0⟩⟩) "tok" [] =
      ({ Id := "" }, some (.unmarshalType "number" "email")) ∧
    scan "\x7b\"USER_ID\":\"u1\"\x7d" = .ok (.object [("USER_ID", .str "u1")]) [] ∧
    FindUser urlParse (clientAnswering ⟨200, ⟨"\x7b\"USER_ID\":\"u1\"\x7d", none, 0⟩⟩) "tok" [] =
      ({ Id := "u1" }, none) :=
  ⟨rfl, by decide, rfl, by decide⟩

/-- C10 (amended). Let a 2xx body begin with a JSON object in which every
member that names `id` (up to letter case) carries `null` or the empty string,
every member that names `username`, `email` or `verified` carries a value of
that field's type or `null`, and no member names `user_id`.  Then each of
`CreateUser`, `FindUser`, `GetUser`, `VerifyUser` and `ChangePassword` returns a
nil error and the decoded `User` with an empty `Id`: that no id was found is
not reported. -/
theorem silent_fallback (parse : URLParser) (client : BroodClient) (response : Response)
    (kvs : List (String × JSON)) (rest : List Char)
    (hs : response.success = true)
    (hscan : scan response.Body.data = .ok (.object kvs) rest)
    (hfit : fitsUser kvs = true) (hid : lacksId kvs = true)
    (huid : lacksUserId kvs = true) :
    (∀ username email password,
      Answers client (CreateUserRequest parse client username email password) response →
      CreateUser parse client username email password =
        ({ (Decode User.target response.Body {}).1 with Id := "" }, none)) ∧
    (∀ token queryParameters,
      Answers client (FindUserRequest parse client token queryParameters) response →
      FindUser parse client token queryParameters =
        ({ (Decode User.target response.Body {}).1 with Id := "" }, none)) ∧
    (∀ token, Answers client (GetUserRequest parse client token) response →
      GetUser parse client token =
        ({ (Decode User.target response.Body {}).1 with Id := "" }, none)) ∧
    (∀ token code, Answers client (VerifyUserRequest parse client token code) response →
      VerifyUser parse client token code =
        ({ (Decode User.target response.Body {}).1 with Id := "" }, none)) ∧
    (∀ token currentPassword newPassword,
      Answers client
        (ChangePasswordRequest parse client token currentPassword newPassword) response →
      ChangePassword parse client token currentPassword newPassword =
        ({ (Decode User.target response.Body {}).1 with Id := "" }, none)) := by
  have hu := userResult_silent response kvs rest hs hscan hfit hid huid
  refine ⟨?_, ?_, ?_, ?_, ?_⟩
  · intro username email password ha
    rw [CreateUser_answered parse client username email password response ha, hu]
  · intro token queryParameters ha
    rw [FindUser_answered parse client token queryParameters response ha, hu]
  · intro token ha
    rw [GetUser_answered parse client token response ha, hu]
  · intro token code ha
    rw [VerifyUser_answered parse client token code response ha, hu]
  · intro token currentPassword newPassword ha
    rw [ChangePassword_answered parse client token currentPassword newPassword response ha, hu]

/-- C10 (amended), at the body `\x7b"username":"alice","verified":true\x7d`. -/
theorem silent_fallback_witness :
    GetUser urlParse (clientAnswering silentResponse) "tok" =
      ({ Id := "", Username := "alice", Verified := true }, none) ∧
    VerifyUser urlParse (clientAnswering silentResponse) "tok" "1234" =
      ({ Id := "", Username := "alice", Verified := true }, none) :=
  ⟨((silent_fallback urlParse (clientAnswering silentResponse) silentResponse
      [("username", .str "alice"), ("verified", .bool true)] []
      (by decide) rfl (by decide) (by decide) (by decide)).2.2.1
      "tok" ⟨_, rfl, rfl⟩).trans (by decide),
   ((silent_fallback urlParse (clientAnswering silentResponse) silentResponse
      [("username", .str "alice"), ("verified", .bool true)] []
      (by decide) rfl (by decide) (by decide) (by decide)).2.2.2.1
      "tok" "1234" ⟨_, rfl, rfl⟩).trans (by decide)⟩

end Brood
